import Mathlib

/-!
# computeLFTfromSFTs: frequency-bin reordering and SFT -> LFT assembly

A shallow embedding of `lalapps/src/pulsar/FDS_isolated/computeLFTfromSFTs.c`.

Conventions of the embedding

* A `COMPLEX8Vector *` is an `Option (List α)`: `none` is the NULL pointer, the
  list holds the `length` samples of `data`.  The sample type `α` is left
  abstract (the reordering never inspects a sample).
* A function that updates a buffer in place returns the value it returns in C
  together with the contents of the buffer afterwards.
* A `REAL8` quantity is the rational it denotes (`ℚ`).  The first embedding of
  `XLALSFTVectorToLFT` computes with these exactly; the second one (suffix
  `_REAL8`) rounds the result of every operation to the nearest `REAL8`, as the
  C code does, and is the one used wherever a sample count or a placement
  index is at stake.
* Calls into LAL that are not part of this file (allocation, FFT plans, the FFT
  itself, GPS conversion) are parameters: each call site receives the outcome
  of its call.
* Behaviour that C leaves undefined (a copy outside a buffer, a conversion of an
  out-of-range value to `UINT4`) is the outcome `Result.undefined`.
-/

set_option autoImplicit false

namespace LFT

/-! ## Outcomes -/

/-- The XLAL error numbers raised in this file. -/
inductive XLALErrorValue where
  | XLAL_ENOMEM
  | XLAL_EINVAL
  | XLAL_EFUNC
  deriving DecidableEq, Repr

/-- Outcome of a call: `ok v` is a normal return (`XLAL_SUCCESS`, or a non-NULL
pointer), `error e` is `XLAL_ERROR (fn, e)` / `XLAL_ERROR_NULL (fn, e)`, and
`undefined` marks an execution that has left the defined behaviour of C. -/
inductive Result (β : Type) where
  | ok (v : β)
  | error (e : XLALErrorValue)
  | undefined
  deriving DecidableEq, Repr

/-! ## memcpy -/

/-- The call `memcpy (dst + d, src + s, n * sizeof(*src))` on buffers held as lists:
`n` elements of `src` from offset `s` replace the `n` elements of `dst` from
offset `d`.  The copy is defined only when both ranges lie inside their
buffers. -/
def memcpy {α : Type} (dst : List α) (d : Nat) (src : List α) (s n : Nat) : Option (List α) :=
  if d + n ≤ dst.length ∧ s + n ≤ src.length then
    some (dst.take d ++ (src.drop s).take n ++ dst.drop (d + n))
  else
    none

/-! ## Frequency-bin reordering -/

/-- The expression `floor( N/2.0 + 0.5 )` assigned to a `UINT4`. -/
def NhalfPos (N : Nat) : Nat :=
  Int.toNat ⌊(N : ℚ) / 2 + 1 / 2⌋

/-- The expression `N - NhalfPos`. -/
def NhalfNeg (N : Nat) : Nat :=
  N - NhalfPos N

/-- Embedding of `XLALReorderFFTWtoSFT (COMPLEX8Vector *X)`.
`XLALMalloc n` is the outcome of the call `XLALMalloc ( n * sizeof(*tmp) )`:
`none` for NULL, otherwise the (indeterminate) initial contents of the block.
The result is the return value and the contents of `X` afterwards. -/
def XLALReorderFFTWtoSFT {α : Type} (XLALMalloc : Nat → Option (Nat → α)) :
    Option (List α) → Result Unit × Option (List α)
  | none => (.error .XLAL_EINVAL, none)
  | some X =>
    if X.length = 0 then (.error .XLAL_EINVAL, some X)
    else
      let N := X.length
      match XLALMalloc N with
      | none => (.error .XLAL_ENOMEM, some X)
      | some block =>
        match memcpy ((List.range N).map block) 0 X 0 N with
        | none => (.undefined, some X)
        | some tmp =>
          match memcpy X 0 tmp (NhalfPos N) (NhalfNeg N) with
          | none => (.undefined, some X)
          | some X1 =>
            match memcpy X1 (NhalfNeg N) tmp 0 (NhalfPos N) with
            | none => (.undefined, some X1)
            | some X2 => (.ok (), some X2)

/-- Embedding of `XLALReorderSFTtoFFTW (COMPLEX8Vector *X)`; the parameter and the
result are as for `XLALReorderFFTWtoSFT`. -/
def XLALReorderSFTtoFFTW {α : Type} (XLALMalloc : Nat → Option (Nat → α)) :
    Option (List α) → Result Unit × Option (List α)
  | none => (.error .XLAL_EINVAL, none)
  | some X =>
    if X.length = 0 then (.error .XLAL_EINVAL, some X)
    else
      let N := X.length
      match XLALMalloc N with
      | none => (.error .XLAL_ENOMEM, some X)
      | some block =>
        match memcpy ((List.range N).map block) 0 X 0 N with
        | none => (.undefined, some X)
        | some tmp =>
          match memcpy X (NhalfPos N) tmp 0 (NhalfNeg N) with
          | none => (.undefined, some X)
          | some X1 =>
            match memcpy X1 0 tmp (NhalfNeg N) (NhalfPos N) with
            | none => (.undefined, some X1)
            | some X2 => (.ok (), some X2)

/-! ## SFT -> LFT assembly -/

/-- The type `LIGOTimeGPS`. -/
structure LIGOTimeGPS where
  gpsSeconds : Int
  gpsNanoSeconds : Int
  deriving DecidableEq, Repr

/-- The type `SFTtype` (a `COMPLEX8FrequencySeries`): `α` is the sample type,
`U` the type of the unit tag `LALUnit`. -/
structure SFTtype (α U : Type) where
  name : String
  epoch : LIGOTimeGPS
  f0 : ℚ
  deltaF : ℚ
  sampleUnits : U
  data : List α
  deriving DecidableEq, Repr

/-- The LAL routines called by `XLALSFTVectorToLFT`, one field per call site.
A `Bool` tells whether the object was created (`false` is a NULL return); a
transform returns `none` on failure and otherwise the sample it wrote at each
index of its output vector. -/
structure LAL (α : Type) where
  /-- Value of `XLALGPSGetREAL8 ( &epoch )`. -/
  XLALGPSGetREAL8 : LIGOTimeGPS → ℚ
  /-- Outcome of `XLALCreateReverseCOMPLEX8FFTPlan ( numBins, 0 )`. -/
  XLALCreateReverseCOMPLEX8FFTPlan : Nat → Bool
  /-- Outcome of `XLALCreateCOMPLEX8TimeSeries ( ..., numTimeSamples )` for `lTS`. -/
  XLALCreateCOMPLEX8TimeSeries_lTS : Nat → Bool
  /-- Outcome of `XLALCreateCOMPLEX8TimeSeries ( ..., numBins )` for `sTS`. -/
  XLALCreateCOMPLEX8TimeSeries_sTS : Nat → Bool
  /-- Outcome of `LALCalloc ( 1, sizeof(*outputLFT) )`. -/
  LALCalloc : Bool
  /-- Outcome of `XLALCreateCOMPLEX8Vector ( numTimeSamples )`. -/
  XLALCreateCOMPLEX8Vector : Nat → Bool
  /-- Outcome of `XLALCOMPLEX8VectorFFT ( sTS->data, thisSFT->data, SFTplan )` in
  iteration `n` of the loop, as a function of `n` and the data of `thisSFT`. -/
  XLALCOMPLEX8VectorFFT_SFTplan : Nat → List α → Option (Nat → α)
  /-- Contents of the input vector `thisSFT->data` after that call (whether it
  succeeds or fails), as a function of `n` and the contents before. -/
  XLALCOMPLEX8VectorFFT_SFTplan_input : Nat → List α → List α
  /-- Outcome of `XLALCreateForwardCOMPLEX8FFTPlan ( numTimeSamples, 0 )`. -/
  XLALCreateForwardCOMPLEX8FFTPlan : Nat → Bool
  /-- Outcome of `XLALCOMPLEX8VectorFFT ( outputLFT->data, lTS->data, LFTplan )`. -/
  XLALCOMPLEX8VectorFFT_LFTplan : List α → Option (Nat → α)
  /-- Outcome of `XLALMalloc` inside `XLALReorderFFTWtoSFT (outputLFT->data)`. -/
  XLALMalloc : Nat → Option (Nat → α)

/-- The objects `XLALSFTVectorToLFT` asks LAL to create, in the order asked. -/
inductive Request where
  | ReverseCOMPLEX8FFTPlan (size : Nat)
  | COMPLEX8TimeSeries (length : Nat)
  | Calloc
  | COMPLEX8Vector (length : Nat)
  | ForwardCOMPLEX8FFTPlan (size : Nat)
  deriving DecidableEq, Repr

/-- The conversion `(UINT4)(x)` of a `REAL8` value `x`: truncation toward zero.
It is defined only when the truncated value is a `UINT4`, that is for
`-1 < x < 2^32` (for `-1 < x < 0` the truncation is `0 = Int.toNat (-1)`). -/
def toUINT4 (x : ℚ) : Option Nat :=
  if -1 < x ∧ x < 4294967296 then some (Int.toNat ⌊x⌋) else none

/-- The value given to `bin0_n` in the loop of `XLALSFTVectorToLFT` for the SFT
`thisSFT`: `(UINT4) ( ( startTime_n - startTime ) / deltaT + 0.5 )`, the
subtraction, the quotient and the sum taken exactly (`bin0_n_REAL8` rounds each
of them to `REAL8`). -/
def bin0_n {α U : Type} (E : LAL α) (startTime deltaT : ℚ) (thisSFT : SFTtype α U) :
    Option Nat :=
  let startTime_n := E.XLALGPSGetREAL8 thisSFT.epoch
  toUINT4 ((startTime_n - startTime) / deltaT + 1 / 2)

/-- The loop `for ( n = 0; n < numSFTs; n ++ )` of `XLALSFTVectorToLFT`, started at
iteration `n` with the SFTs still to be processed and the current contents of
`lTS->data`; the result is the contents of `lTS->data` after the loop. -/
def XLALSFTVectorToLFT_loop {α U : Type} (E : LAL α) (numBins : Nat) (startTime deltaT : ℚ) :
    Nat → List (SFTtype α U) → List α → Result (List α)
  | _, [], lTS => .ok lTS
  | n, thisSFT :: rest, lTS =>
    match E.XLALCOMPLEX8VectorFFT_SFTplan n thisSFT.data with
    | none => .error .XLAL_EFUNC
    | some out =>
      let sTS := (List.range numBins).map out
      match bin0_n E startTime deltaT thisSFT with
      | none => .undefined
      | some bin0 =>
        match memcpy lTS bin0 sTS 0 numBins with
        | none => .undefined
        | some lTS1 => XLALSFTVectorToLFT_loop E numBins startTime deltaT (n + 1) rest lTS1

/-- Embedding of `XLALSFTVectorToLFT ( const SFTVector *sfts )`.  The result is
the returned `SFTtype` (or the failure) and the list of objects requested from
LAL up to the return.  `REAL8` arithmetic is exact; a quotient by an infinite
`deltaT` (for `numBins = 0`) is zero, as is `x / 0` in `ℚ`. -/
def XLALSFTVectorToLFT {α U : Type} [Zero α] (E : LAL α) :
    Option (List (SFTtype α U)) → Result (SFTtype α U) × List Request
  | none => (.error .XLAL_EINVAL, [])
  | some [] => (.error .XLAL_EINVAL, [])
  | some (firstHead :: rest) =>
    let sfts := firstHead :: rest
    let numBins := firstHead.data.length
    let deltaF := firstHead.deltaF
    let Tsft := 1 / deltaF
    let deltaT := 1 / ((numBins : ℚ) * deltaF)
    let startTime := E.XLALGPSGetREAL8 firstHead.epoch
    let endTime := E.XLALGPSGetREAL8 (sfts.getLast (List.cons_ne_nil _ _)).epoch + Tsft
    let Tspan := endTime - startTime
    -- for `deltaF = 0` the quotient `Tspan / deltaT` is `inf / inf`, not a number,
    -- and its conversion to `UINT4` is undefined
    if deltaF = 0 then (.undefined, [])
    else
    match toUINT4 (Tspan / deltaT + 1 / 2) with
    | none => (.undefined, [])
    | some numTimeSamples =>
      let Tspan := (numTimeSamples : ℚ) * deltaT
      let r1 := [Request.ReverseCOMPLEX8FFTPlan numBins]
      if !E.XLALCreateReverseCOMPLEX8FFTPlan numBins then (.error .XLAL_EFUNC, r1)
      else
      let r2 := r1 ++ [Request.COMPLEX8TimeSeries numTimeSamples]
      if !E.XLALCreateCOMPLEX8TimeSeries_lTS numTimeSamples then (.error .XLAL_EFUNC, r2)
      else
      let lTS : List α := List.replicate numTimeSamples 0
      let r3 := r2 ++ [Request.COMPLEX8TimeSeries numBins]
      if !E.XLALCreateCOMPLEX8TimeSeries_sTS numBins then (.error .XLAL_EFUNC, r3)
      else
      let r4 := r3 ++ [Request.Calloc]
      if !E.LALCalloc then (.error .XLAL_ENOMEM, r4)
      else
      let r5 := r4 ++ [Request.COMPLEX8Vector numTimeSamples]
      if !E.XLALCreateCOMPLEX8Vector numTimeSamples then (.error .XLAL_ENOMEM, r5)
      else
      match XLALSFTVectorToLFT_loop E numBins startTime deltaT 0 sfts lTS with
      | .error e => (.error e, r5)
      | .undefined => (.undefined, r5)
      | .ok lTS =>
        let r6 := r5 ++ [Request.ForwardCOMPLEX8FFTPlan numTimeSamples]
        if !E.XLALCreateForwardCOMPLEX8FFTPlan numTimeSamples then (.error .XLAL_EFUNC, r6)
        else
        match E.XLALCOMPLEX8VectorFFT_LFTplan lTS with
        | none => (.error .XLAL_EFUNC, r6)
        | some out =>
          match XLALReorderFFTWtoSFT E.XLALMalloc
              (some ((List.range numTimeSamples).map out)) with
          | (.ok (), some data) =>
            (.ok { name := firstHead.name ++ ":long Fourier transform"
                   epoch := firstHead.epoch
                   f0 := firstHead.f0
                   deltaF := 1 / Tspan
                   sampleUnits := firstHead.sampleUnits
                   data := data }, r6)
          | (.undefined, _) => (.undefined, r6)
          | _ => (.error .XLAL_EFUNC, r6)

/-! ## The demodulation loop of `main` -/

/-- The variables updated by the two copy loops of `main`: the contents of
`SSBsftData->data`, the counter `k1`, and (for the record) the indices written
so far, in order. -/
structure CopyState (K : Type) where
  SSBsftData : List K
  k1 : Nat
  written : List Nat
  deriving DecidableEq, Repr

/-- The body of both copy loops of `main`:
`SSBsftData->data[k1] = fact * inputSFT->data->data[k0]; k1 ++;`.
A `COMPLEX8` sample is an element of the field `K`; the two assignments to `.re`
and `.im` with the same real factor are the product of the sample by `fact`.
The step is undefined (`none`) when `k0` or `k1` lies outside its vector. -/
def main_copyStep {K : Type} [Field K] (fact : K) (inputSFT : List K) (st : CopyState K)
    (k0 : Nat) : Option (CopyState K) :=
  match inputSFT[k0]? with
  | none => none
  | some x =>
    if st.k1 < st.SSBsftData.length then
      some { SSBsftData := st.SSBsftData.set st.k1 (fact * x)
             k1 := st.k1 + 1
             written := st.written ++ [st.k1] }
    else none

/-- A loop `for ( k0 = start; k0 < start + count; k0 ++ )` over `main_copyStep`,
with `count` iterations left and the current value of `k0`. -/
def main_copyLoop {K : Type} [Field K] (fact : K) (inputSFT : List K) :
    Nat → Nat → CopyState K → Option (CopyState K)
  | 0, _, st => some st
  | count + 1, k0, st =>
    match main_copyStep fact inputSFT st k0 with
    | none => none
    | some st1 => main_copyLoop fact inputSFT count (k0 + 1) st1

/-- The treatment of one input SFT in the demodulation loop of `main` (the body of
`for ( n = 0; n < SSBthisVect->length; n ++ )`): `N0` and `N1` are the bin counts
read before the loop, `inputSFT` the data of the input SFT; the output vector of
`N1` samples is set to zero and filled by the two copy loops, the first for
`k0 = NhalfNeg .. N0 - 1`, the second for `k0 = 0 .. NhalfNeg - 1`. -/
def main_demodulate {K : Type} [Field K] (N0 N1 : Nat) (inputSFT : List K) :
    Option (CopyState K) :=
  let NhalfPos := NhalfPos N0
  let NhalfNeg := N0 - NhalfPos
  let fact : K := 1 / (N1 : K)
  let st0 : CopyState K := { SSBsftData := List.replicate N1 0, k1 := 0, written := [] }
  match main_copyLoop fact inputSFT (N0 - NhalfNeg) NhalfNeg st0 with
  | none => none
  | some st1 => main_copyLoop fact inputSFT (NhalfNeg - 0) 0 st1

/-- The description of the demodulation step to compare `main_demodulate` with:
every bin of the centered -> native reordering of the input (the buffer
`XLALReorderSFTtoFFTW` leaves), multiplied by `1 / N1`. -/
def demodulate_spec {K : Type} [Field K] (N1 : Nat) (inputSFT : List K) : List K :=
  match (XLALReorderSFTtoFFTW (fun _ => some fun _ => (0 : K)) (some inputSFT)).2 with
  | none => []
  | some native => native.map fun x => 1 / (N1 : K) * x

/-! ## Exact discrete Fourier transforms -/

/-- The unnormalised discrete Fourier transform of `x` with kernel `w`, at index
`k`: the sum of `x[j] * w^(j * k)` over `j < length x`.  With `w` a primitive
root of unity of order `length x` this is the reverse (`+`) transform, with
`w⁻¹` the forward (`-`) transform. -/
def dft {K : Type} [Field K] (w : K) (x : List K) (k : Nat) : K :=
  ∑ j ∈ Finset.range x.length, x.getD j 0 * w ^ (j * k)

/-! ## The layout described by the doc comment of the reordering functions -/

/-- The layout the doc comment of `XLALReorderFFTWtoSFT` describes, with integer
division: from `f[0], ..., f[N/2], f[-(N-1)/2], ..., f[-1]` to
`f[-(N-1)/2], ..., f[-1], f[0], ..., f[N/2]`, that is the first `N/2 + 1` input
elements last, preceded by the remaining ones. -/
def docComment_FFTWtoSFT {α : Type} (X : List α) : List α :=
  X.drop (X.length / 2 + 1) ++ X.take (X.length / 2 + 1)

/-! ## SimulateTaylorCWTest.c: `choose` -/

/-- The loop `while ( --index ) { numer *= a - b + index; denom *= index; }` of
`choose` in `UINT4` arithmetic.  The first argument is the value of `index` after
the decrement in the loop condition: 0 ends the loop, `index + 1` runs the body
and decrements again. -/
def choose_while (a b : Nat) : Nat → Nat → Nat → Nat × Nat
  | 0, numer, denom => (numer, denom)
  | index + 1, numer, denom =>
    choose_while a b index
      (numer * ((a + 4294967296 - b + (index + 1)) % 4294967296) % 4294967296)
      (denom * (index + 1) % 4294967296)

/-- Embedding of `choose( UINT4 a, UINT4 b )` for `a, b < 2^32`: `none` when the
final `numer/denom` divides by zero. -/
def choose (a b : Nat) : Option Nat :=
  let numer := 1
  let denom := 1
  let index := (b + 1) % 4294967296
  let r := choose_while a b ((index + 4294967296 - 1) % 4294967296) numer denom
  if r.2 = 0 then none else some (r.1 / r.2)

/-! ## SimulateTaylorCWTest.c: `I8ToLIGOTimeGPS` -/

/-- The conversion `(INT4)( x )` of an `INT8` value `x`: the value itself when it
is an `INT4`, and otherwise its reduction modulo `2^32` into `[-2^31, 2^31)`. -/
def toINT4 (x : Int) : Int :=
  (x + 2147483648) % 4294967296 - 2147483648

/-- Embedding of `I8ToLIGOTimeGPS( LIGOTimeGPS *output, INT8 input )`: the result
is `*output` after the call.  The quotient `input / 1000000000LL` of `INT8`
values truncates toward zero; neither it nor `1000000000LL*s` leaves `INT8`. -/
def I8ToLIGOTimeGPS (input : Int) : LIGOTimeGPS :=
  let s := Int.tdiv input 1000000000
  { gpsSeconds := toINT4 s
    gpsNanoSeconds := toINT4 (input - 1000000000 * s) }

/-- The value of `epoch` after the two statements of `main` that recombine
`output.epoch` before it is printed:
`epoch = 1000000000LL*(INT8)( gpsSeconds ); epoch += (INT8)( gpsNanoSeconds );`
(for `INT4` fields the sum stays inside `INT8`). -/
def main_epoch (epoch : LIGOTimeGPS) : Int :=
  1000000000 * epoch.gpsSeconds + epoch.gpsNanoSeconds

/-! ## SimulateTaylorCWTest.c: the loop of `choose`, step by step -/

/-- The loop `while ( --index ) { numer *= a - b + index; denom *= index; }` of
`choose` run for at most `fuel` evaluations of its condition, from the values of
`index`, `numer` and `denom` before an evaluation; `iterations` counts the
executions of the body.  The result is `numer`, `denom` and `iterations` when
the loop ends, and `none` if it has not ended when the fuel is used up. -/
def choose_loop (a b : Nat) : Nat → Nat → Nat → Nat → Nat → Option (Nat × Nat × Nat)
  | 0, _, _, _, _ => none
  | fuel + 1, index, numer, denom, iterations =>
    let index := (index + 4294967296 - 1) % 4294967296
    if index = 0 then some (numer, denom, iterations)
    else
      choose_loop a b fuel index
        (numer * ((a + 4294967296 - b + index) % 4294967296) % 4294967296)
        (denom * index % 4294967296) (iterations + 1)

/-! ## SimulateTaylorCWTest.c: argument parsing in `main` -/

/-- The exit code `SIMULATETAYLORCWTESTC_EARG`. -/
def SIMULATETAYLORCWTESTC_EARG : Nat := 2

/-- The variables of `main` read or set by the argument parsing; a `CHAR *` is an
`Option String`, `none` for NULL. -/
structure ParseState where
  arg : Nat
  sourcefile : Option String
  respfile : Option String
  outfile : Option String
  earthfile : Option String
  sunfile : Option String
  site : Option String
  npt : Int
  sec : Int
  nsec : Int
  dt : ℚ
  lalDebugLevel : Int
  deriving DecidableEq, Repr

/-- The values of the variables when the parsing starts: `arg = 1`, the file names
NULL, `npt = NPT`, `sec = SEC`, `nsec = NSEC`, `dt = DT`, `lalDebugLevel = 0`. -/
def main_parseInit : ParseState :=
  { arg := 1, sourcefile := none, respfile := none, outfile := none, earthfile := none,
    sunfile := none, site := none, npt := 1048576, sec := 0, nsec := 0,
    dt := 9765625 / 10000000000, lalDebugLevel := 0 }

/-- What one execution of the body of the parsing loop does: it goes on to the
next evaluation of `arg < argc` with the variables as given, or `main` returns
the code. -/
inductive ParseStep where
  | next (st : ParseState)
  | returned (code : Nat)
  deriving DecidableEq, Repr

/-- The body of `while ( arg < argc )` in `main`, entered with `arg < argc`.
`argv` is the argument vector (`argc` its length), `atoi` and `atof` the C library
conversions; `strcmp` against a literal is string equality and `argv[arg][0]`
the first character of the word, if it has one. -/
def main_parseBody (atoi : String → Int) (atof : String → ℚ) (argv : List String)
    (st : ParseState) : ParseStep :=
  let argc := argv.length
  let arg := st.arg
  let word := argv.getD arg ""
  if word = "-s" then
    if argc > arg + 1 then .next { st with arg := arg + 2, sourcefile := argv[arg + 1]? }
    else .returned SIMULATETAYLORCWTESTC_EARG
  else if word = "-r" then
    if argc > arg + 1 then .next { st with arg := arg + 2, respfile := argv[arg + 1]? }
    else .returned SIMULATETAYLORCWTESTC_EARG
  else if word = "-o" then
    if argc > arg + 1 then .next { st with arg := arg + 2, outfile := argv[arg + 1]? }
    else .returned SIMULATETAYLORCWTESTC_EARG
  else if word = "-l" then
    if argc > arg + 3 then
      .next { st with arg := arg + 4, site := argv[arg + 1]?, earthfile := argv[arg + 2]?,
                      sunfile := argv[arg + 3]? }
    else .returned SIMULATETAYLORCWTESTC_EARG
  else if word = "-t" then
    if argc > arg + 4 then
      .next { st with arg := arg + 5, sec := atoi (argv.getD (arg + 1) ""),
                      nsec := atoi (argv.getD (arg + 2) ""),
                      npt := atoi (argv.getD (arg + 3) ""),
                      dt := atof (argv.getD (arg + 4) "") }
    else .returned SIMULATETAYLORCWTESTC_EARG
  else if word = "-d" then
    if argc > arg + 1 then
      .next { st with arg := arg + 2, lalDebugLevel := atoi (argv.getD (arg + 1) "") }
    else .returned SIMULATETAYLORCWTESTC_EARG
  else if word.data.head? = some '-' then .returned SIMULATETAYLORCWTESTC_EARG
  else .next st

/-- How the parsing ends: `main` has returned a code, or the loop has ended and
`main` goes on with the variables as given. -/
inductive ParseResult where
  | returned (code : Nat)
  | parsed (st : ParseState)
  deriving DecidableEq, Repr

/-- The loop `while ( arg < argc ) { ... }` of `main` run for at most `fuel`
evaluations of its condition; `none` if it has not ended when the fuel is used
up. -/
def main_parseLoop (atoi : String → Int) (atof : String → ℚ) (argv : List String) :
    Nat → ParseState → Option ParseResult
  | 0, _ => none
  | fuel + 1, st =>
    if st.arg < argv.length then
      match main_parseBody atoi atof argv st with
      | .returned code => some (.returned code)
      | .next st1 => main_parseLoop atoi atof argv fuel st1
    else some (.parsed st)

/-! ## REAL8 arithmetic -/

/-- The number `k` with `2^k <= n < 2^(k+1)` for `n >= 1` (and 0 for `n = 0`),
found by halving at most `fuel` times. -/
def log2_fuel : Nat → Nat → Nat
  | 0, _ => 0
  | fuel + 1, n => if n < 2 then 0 else log2_fuel fuel (n / 2) + 1

/-- The integer nearest to `q`, the even one of the two when `q` lies halfway
between two integers. -/
def roundHalfEven (q : ℚ) : ℤ :=
  let f := ⌊q⌋
  if q - f < 1 / 2 then f
  else if 1 / 2 < q - f then f + 1
  else if f % 2 = 0 then f else f + 1

/-- The exponent `k` with `2^k <= |q| < 2^(k+1)`, for `q` not zero. -/
def binade (q : ℚ) : ℤ :=
  let e : ℤ := (log2_fuel q.num.natAbs q.num.natAbs : ℤ) - (log2_fuel q.den q.den : ℤ)
  if |q| < (2 : ℚ) ^ e then e - 1 else e

/-- The `REAL8` (IEEE 754 binary64) value nearest to `q`, the one with the even
significand when `q` lies halfway between two: the rounding that every `REAL8`
operation of the C code applies to its exact result.  A value has 53
significant bits; the exponent range is not limited (no overflow and no
subnormal numbers), and every operation is taken to be evaluated in `REAL8`. -/
def REAL8 (q : ℚ) : ℚ :=
  if q = 0 then 0
  else
    let ulp : ℚ := (2 : ℚ) ^ (binade q - 52)
    (roundHalfEven (q / ulp) : ℚ) * ulp

/-! ## SFT -> LFT assembly with the arithmetic, the name buffer and the input
segments of the C code

The embedding `XLALSFTVectorToLFT` above computes in exact rationals, holds a
name as an unbounded string and only reads the segments.  The embedding of this
section follows the `REAL8` operations of the function one by one, gives the
`name` field its `LALNameLength` bytes, and returns the segments as the call
leaves them. -/

/-- `LALNameLength`, the size in bytes of the field `CHAR name[LALNameLength]` of a
frequency series. -/
def LALNameLength : Nat := 64

/-- The value of `deltaT = 1.0 / ( numBins * deltaF )`. -/
def deltaT_REAL8 (numBins : Nat) (deltaF : ℚ) : ℚ :=
  REAL8 (1 / REAL8 ((numBins : ℚ) * deltaF))

/-- The value of `(UINT4)(Tspan / deltaT + 0.5)` after
`Tsft = 1.0 / deltaF`, `deltaT = 1.0 / ( numBins * deltaF )`,
`endTime = XLALGPSGetREAL8 ( last epoch ) + Tsft` and `Tspan = endTime - startTime`,
each operation rounded to `REAL8`; `startTime` and `startTime_last` are the values
of `XLALGPSGetREAL8` for the first and the last SFT. -/
def numTimeSamples_REAL8 (numBins : Nat) (deltaF startTime startTime_last : ℚ) :
    Option Nat :=
  let Tsft := REAL8 (1 / deltaF)
  let deltaT := deltaT_REAL8 numBins deltaF
  let endTime := REAL8 (startTime_last + Tsft)
  let Tspan := REAL8 (endTime - startTime)
  toUINT4 (REAL8 (REAL8 (Tspan / deltaT) + 1 / 2))

/-- The value given to `bin0_n` in the loop for the SFT `thisSFT`:
`(UINT4) ( ( startTime_n - startTime ) / deltaT + 0.5 )` with each operation
rounded to `REAL8`. -/
def bin0_n_REAL8 {α U : Type} (E : LAL α) (startTime deltaT : ℚ) (thisSFT : SFTtype α U) :
    Option Nat :=
  let startTime_n := E.XLALGPSGetREAL8 thisSFT.epoch
  toUINT4 (REAL8 (REAL8 (REAL8 (startTime_n - startTime) / deltaT) + 1 / 2))

/-- The loop `for ( n = 0; n < numSFTs; n ++ )`, started at iteration `n` with the
SFTs still to be processed and the current contents of `lTS->data`.  The result
is the contents of `lTS->data` after the loop (or the failure) and the SFTs as
the loop leaves them: the transform is handed the vector `thisSFT->data`, which
afterwards holds what the transform left there. -/
def XLALSFTVectorToLFT_loop_REAL8 {α U : Type} (E : LAL α) (numBins : Nat)
    (startTime deltaT : ℚ) :
    Nat → List (SFTtype α U) → List α → Result (List α) × List (SFTtype α U)
  | _, [], lTS => (.ok lTS, [])
  | n, thisSFT :: rest, lTS =>
    let thisSFT1 :=
      { thisSFT with data := E.XLALCOMPLEX8VectorFFT_SFTplan_input n thisSFT.data }
    match E.XLALCOMPLEX8VectorFFT_SFTplan n thisSFT.data with
    | none => (.error .XLAL_EFUNC, thisSFT1 :: rest)
    | some out =>
      let sTS := (List.range numBins).map out
      match bin0_n_REAL8 E startTime deltaT thisSFT with
      | none => (.undefined, thisSFT1 :: rest)
      | some bin0 =>
        match memcpy lTS bin0 sTS 0 numBins with
        | none => (.undefined, thisSFT1 :: rest)
        | some lTS1 =>
          let r := XLALSFTVectorToLFT_loop_REAL8 E numBins startTime deltaT (n + 1) rest lTS1
          (r.1, thisSFT1 :: r.2)

/-- Embedding of `XLALSFTVectorToLFT ( const SFTVector *sfts )` with `REAL8`
arithmetic.  The result is the returned `SFTtype` (or the failure), the list of
objects requested from LAL up to the return, and the SFTs as the call leaves
them.  `strcpy` and `strcat` write the name of the first SFT, the 23 bytes of
the suffix and a terminating zero into the `LALNameLength` bytes of
`outputLFT->name`; writing more is undefined.  A quotient by an infinite
`deltaT` (for `numBins = 0`) is zero, as is `x / 0` in `ℚ`. -/
def XLALSFTVectorToLFT_REAL8 {α U : Type} [Zero α] (E : LAL α) :
    Option (List (SFTtype α U)) →
      Result (SFTtype α U) × List Request × List (SFTtype α U)
  | none => (.error .XLAL_EINVAL, [], [])
  | some [] => (.error .XLAL_EINVAL, [], [])
  | some (firstHead :: rest) =>
    let sfts := firstHead :: rest
    let numBins := firstHead.data.length
    let deltaF := firstHead.deltaF
    let deltaT := deltaT_REAL8 numBins deltaF
    let startTime := E.XLALGPSGetREAL8 firstHead.epoch
    -- for `deltaF = 0` the quotient `Tspan / deltaT` is `inf / inf`, not a number,
    -- and its conversion to `UINT4` is undefined
    if deltaF = 0 then (.undefined, [], sfts)
    else
    match numTimeSamples_REAL8 numBins deltaF startTime
        (E.XLALGPSGetREAL8 (sfts.getLast (List.cons_ne_nil _ _)).epoch) with
    | none => (.undefined, [], sfts)
    | some numTimeSamples =>
      let Tspan := REAL8 ((numTimeSamples : ℚ) * deltaT)
      let r1 := [Request.ReverseCOMPLEX8FFTPlan numBins]
      if !E.XLALCreateReverseCOMPLEX8FFTPlan numBins then (.error .XLAL_EFUNC, r1, sfts)
      else
      let r2 := r1 ++ [Request.COMPLEX8TimeSeries numTimeSamples]
      if !E.XLALCreateCOMPLEX8TimeSeries_lTS numTimeSamples then (.error .XLAL_EFUNC, r2, sfts)
      else
      let lTS : List α := List.replicate numTimeSamples 0
      let r3 := r2 ++ [Request.COMPLEX8TimeSeries numBins]
      if !E.XLALCreateCOMPLEX8TimeSeries_sTS numBins then (.error .XLAL_EFUNC, r3, sfts)
      else
      let r4 := r3 ++ [Request.Calloc]
      if !E.LALCalloc then (.error .XLAL_ENOMEM, r4, sfts)
      else
      if LALNameLength < firstHead.name.utf8ByteSize + 23 + 1 then (.undefined, r4, sfts)
      else
      let r5 := r4 ++ [Request.COMPLEX8Vector numTimeSamples]
      if !E.XLALCreateCOMPLEX8Vector numTimeSamples then (.error .XLAL_ENOMEM, r5, sfts)
      else
      match XLALSFTVectorToLFT_loop_REAL8 E numBins startTime deltaT 0 sfts lTS with
      | (.error e, sfts1) => (.error e, r5, sfts1)
      | (.undefined, sfts1) => (.undefined, r5, sfts1)
      | (.ok lTS, sfts1) =>
        let r6 := r5 ++ [Request.ForwardCOMPLEX8FFTPlan numTimeSamples]
        if !E.XLALCreateForwardCOMPLEX8FFTPlan numTimeSamples then
          (.error .XLAL_EFUNC, r6, sfts1)
        else
        match E.XLALCOMPLEX8VectorFFT_LFTplan lTS with
        | none => (.error .XLAL_EFUNC, r6, sfts1)
        | some out =>
          match XLALReorderFFTWtoSFT E.XLALMalloc
              (some ((List.range numTimeSamples).map out)) with
          | (.ok (), some data) =>
            (.ok { name := firstHead.name ++ ":long Fourier transform"
                   epoch := firstHead.epoch
                   f0 := firstHead.f0
                   deltaF := REAL8 (1 / Tspan)
                   sampleUnits := firstHead.sampleUnits
                   data := data }, r6, sfts1)
          | (.undefined, _) => (.undefined, r6, sfts1)
          | _ => (.error .XLAL_EFUNC, r6, sfts1)

/-! ## A concrete instance, for running the embedding -/

/-- An instance of the LAL routines: every object is created except an FFT plan
of length 0, both transforms copy their input (padding with zeros), and a GPS
time is `gpsSeconds + gpsNanoSeconds / 10^9`. -/
def copyLAL : LAL ℤ where
  XLALGPSGetREAL8 := fun t => (t.gpsSeconds : ℚ) + (t.gpsNanoSeconds : ℚ) / 1000000000
  XLALCreateReverseCOMPLEX8FFTPlan := fun n => n != 0
  XLALCreateCOMPLEX8TimeSeries_lTS := fun _ => true
  XLALCreateCOMPLEX8TimeSeries_sTS := fun _ => true
  LALCalloc := true
  XLALCreateCOMPLEX8Vector := fun _ => true
  XLALCOMPLEX8VectorFFT_SFTplan := fun _ x => some fun i => x.getD i 0
  XLALCOMPLEX8VectorFFT_SFTplan_input := fun _ x => x
  XLALCreateForwardCOMPLEX8FFTPlan := fun n => n != 0
  XLALCOMPLEX8VectorFFT_LFTplan := fun x => some fun i => x.getD i 0
  XLALMalloc := fun _ => some fun _ => 0

/-- An instance of the LAL routines in which every object is created and the two
transforms are the exact unnormalised discrete Fourier transforms with kernel
`w` (reverse, sign `+`) and `w⁻¹` (forward, sign `-`). -/
def dftLAL {K : Type} [Field K] (w : K) : LAL K where
  XLALGPSGetREAL8 := fun t => (t.gpsSeconds : ℚ) + (t.gpsNanoSeconds : ℚ) / 1000000000
  XLALCreateReverseCOMPLEX8FFTPlan := fun _ => true
  XLALCreateCOMPLEX8TimeSeries_lTS := fun _ => true
  XLALCreateCOMPLEX8TimeSeries_sTS := fun _ => true
  LALCalloc := true
  XLALCreateCOMPLEX8Vector := fun _ => true
  XLALCOMPLEX8VectorFFT_SFTplan := fun _ x => some (dft w x)
  XLALCOMPLEX8VectorFFT_SFTplan_input := fun _ x => x
  XLALCreateForwardCOMPLEX8FFTPlan := fun _ => true
  XLALCOMPLEX8VectorFFT_LFTplan := fun x => some (dft w⁻¹ x)
  XLALMalloc := fun _ => some fun _ => 0

/-- The instance `copyLAL` with the GPS conversion in `REAL8`: the `REAL8` sum of
`gpsSeconds` and the `REAL8` quotient `gpsNanoSeconds / 1e9`. -/
def copyLAL_REAL8 : LAL ℤ :=
  { copyLAL with
    XLALGPSGetREAL8 := fun t =>
      REAL8 ((t.gpsSeconds : ℚ) + REAL8 ((t.gpsNanoSeconds : ℚ) / 1000000000)) }

/-- An SFT named `H1` starting at GPS second `t` with `f0 = 100`, `deltaF = 1/2`
and the given data. -/
def sampleSFT (t : Int) (d : List ℤ) : SFTtype ℤ Unit :=
  { name := "H1", epoch := ⟨t, 0⟩, f0 := 100, deltaF := 1 / 2, sampleUnits := (), data := d }

/-! ## Auxiliary facts -/

theorem NhalfPos_eq (N : Nat) : NhalfPos N = (N + 1) / 2 := by
  unfold NhalfPos
  have h : ⌊(N : ℚ) / 2 + 1 / 2⌋ = (((N + 1) / 2 : ℕ) : ℤ) := by
    rw [Int.floor_eq_iff]
    have h1 : (N : ℚ) / 2 + 1 / 2 = ((N + 1 : ℕ) : ℚ) / 2 := by push_cast; ring
    rw [h1]
    constructor
    · rw [le_div_iff₀ (by norm_num)]
      have : (N + 1) / 2 * 2 ≤ N + 1 := Nat.div_mul_le_self _ _
      exact_mod_cast this
    · rw [div_lt_iff₀ (by norm_num)]
      have : N + 1 < ((N + 1) / 2 + 1) * 2 := by omega
      exact_mod_cast this
  rw [h, Int.toNat_ofNat]

theorem NhalfNeg_eq (N : Nat) : NhalfNeg N = N / 2 := by
  unfold NhalfNeg
  rw [NhalfPos_eq]
  omega

theorem NhalfPos_le (N : Nat) : NhalfPos N ≤ N := by
  rw [NhalfPos_eq]
  omega

theorem NhalfPos_add_NhalfNeg (N : Nat) : NhalfPos N + NhalfNeg N = N := by
  rw [NhalfPos_eq, NhalfNeg_eq]
  omega

theorem memcpy_eq_some {α : Type} (dst : List α) (d : Nat) (src : List α) (s n : Nat)
    (hd : d + n ≤ dst.length) (hs : s + n ≤ src.length) :
    memcpy dst d src s n = some (dst.take d ++ (src.drop s).take n ++ dst.drop (d + n)) := by
  simp [memcpy, hd, hs]

/-- Closed form of `XLALReorderFFTWtoSFT` on a non-empty buffer when the
temporary block is obtained. -/
theorem XLALReorderFFTWtoSFT_ok {α : Type} (m : Nat → Option (Nat → α)) (block : Nat → α)
    (X : List α) (hX : X.length ≠ 0) (hm : m X.length = some block) :
    XLALReorderFFTWtoSFT m (some X)
      = (.ok (), some (X.drop (NhalfPos X.length) ++ X.take (NhalfPos X.length))) := by
  have hP := NhalfPos_le X.length
  have hPN := NhalfPos_add_NhalfNeg X.length
  have h1 : memcpy ((List.range X.length).map block) 0 X 0 X.length = some X := by
    rw [memcpy_eq_some _ _ _ _ _ (by simp) (by simp)]
    simp
  have h2 : memcpy X 0 X (NhalfPos X.length) (NhalfNeg X.length)
      = some (X.drop (NhalfPos X.length) ++ X.drop (NhalfNeg X.length)) := by
    rw [memcpy_eq_some _ _ _ _ _ (by omega) (by omega)]
    simp
    omega
  have h3 : memcpy (X.drop (NhalfPos X.length) ++ X.drop (NhalfNeg X.length)) (NhalfNeg X.length)
      X 0 (NhalfPos X.length)
      = some (X.drop (NhalfPos X.length) ++ X.take (NhalfPos X.length)) := by
    rw [memcpy_eq_some _ _ _ _ _
      (by simp only [List.length_append, List.length_drop, List.length_take]; omega) (by omega)]
    have hl : (X.drop (NhalfPos X.length)).length = NhalfNeg X.length := by simp; omega
    rw [List.take_append_eq_append_take, List.drop_append_eq_append_drop, hl]
    have e1 : List.take (NhalfNeg X.length) (List.drop (NhalfPos X.length) X)
        = List.drop (NhalfPos X.length) X := by
      apply List.take_of_length_le
      rw [hl]
    have e2 : List.drop (NhalfNeg X.length + NhalfPos X.length) (List.drop (NhalfPos X.length) X)
        = [] := by
      apply List.drop_of_length_le
      rw [hl]
      omega
    have e3 : List.drop (NhalfNeg X.length + NhalfPos X.length - NhalfNeg X.length)
        (List.drop (NhalfNeg X.length) X) = [] := by
      apply List.drop_of_length_le
      rw [List.length_drop]
      omega
    rw [e1, e2, e3]
    simp
  simp only [XLALReorderFFTWtoSFT, if_neg hX, hm, h1, h2, h3]

/-- Closed form of `XLALReorderSFTtoFFTW` on a non-empty buffer when the
temporary block is obtained. -/
theorem XLALReorderSFTtoFFTW_ok {α : Type} (m : Nat → Option (Nat → α)) (block : Nat → α)
    (X : List α) (hX : X.length ≠ 0) (hm : m X.length = some block) :
    XLALReorderSFTtoFFTW m (some X)
      = (.ok (), some (X.drop (NhalfNeg X.length) ++ X.take (NhalfNeg X.length))) := by
  have hP := NhalfPos_le X.length
  have hPN := NhalfPos_add_NhalfNeg X.length
  have h1 : memcpy ((List.range X.length).map block) 0 X 0 X.length = some X := by
    rw [memcpy_eq_some _ _ _ _ _ (by simp) (by simp)]
    simp
  have h2 : memcpy X (NhalfPos X.length) X 0 (NhalfNeg X.length)
      = some (X.take (NhalfPos X.length) ++ X.take (NhalfNeg X.length)) := by
    rw [memcpy_eq_some _ _ _ _ _ (by omega) (by omega)]
    simp
    omega
  have h3 : memcpy (X.take (NhalfPos X.length) ++ X.take (NhalfNeg X.length)) 0
      X (NhalfNeg X.length) (NhalfPos X.length)
      = some (X.drop (NhalfNeg X.length) ++ X.take (NhalfNeg X.length)) := by
    rw [memcpy_eq_some _ _ _ _ _
      (by simp only [List.length_append, List.length_drop, List.length_take]; omega) (by omega)]
    have hl : (X.take (NhalfPos X.length)).length = NhalfPos X.length := by simp; omega
    rw [List.drop_append_eq_append_drop, hl]
    have e1 : List.take (NhalfPos X.length) (List.drop (NhalfNeg X.length) X)
        = List.drop (NhalfNeg X.length) X := by
      apply List.take_of_length_le
      rw [List.length_drop]
      omega
    have e2 : List.drop (0 + NhalfPos X.length) (List.take (NhalfPos X.length) X) = [] := by
      apply List.drop_of_length_le
      rw [hl]
      omega
    rw [e1, e2]
    simp
  simp only [XLALReorderSFTtoFFTW, if_neg hX, hm, h1, h2, h3]

theorem NhalfPos_eq_ceil (N : Nat) : (NhalfPos N : ℤ) = ⌈(N : ℚ) / 2⌉ := by
  rw [NhalfPos_eq]
  symm
  rw [Int.ceil_eq_iff]
  constructor
  · rw [lt_div_iff₀ (by norm_num)]
    have : (((N + 1) / 2 : ℕ) : ℤ) * 2 - 2 < N := by omega
    have h2 : ((((((N + 1) / 2 : ℕ) : ℤ) * 2 - 2 : ℤ)) : ℚ) < ((N : ℤ) : ℚ) := by
      exact_mod_cast this
    push_cast at h2 ⊢
    linarith
  · rw [div_le_iff₀ (by norm_num)]
    have : N ≤ (N + 1) / 2 * 2 := by omega
    exact_mod_cast this

theorem NhalfNeg_eq_floor (N : Nat) : (NhalfNeg N : ℤ) = ⌊(N : ℚ) / 2⌋ := by
  rw [NhalfNeg_eq]
  symm
  rw [Int.floor_eq_iff]
  constructor
  · rw [le_div_iff₀ (by norm_num)]
    have : N / 2 * 2 ≤ N := Nat.div_mul_le_self _ _
    exact_mod_cast this
  · rw [div_lt_iff₀ (by norm_num)]
    have : N < (N / 2 + 1) * 2 := by omega
    exact_mod_cast this

theorem XLALReorderFFTWtoSFT_nomem {α : Type} (m : Nat → Option (Nat → α))
    (X : List α) (hX : X.length ≠ 0) (hm : m X.length = none) :
    XLALReorderFFTWtoSFT m (some X) = (.error .XLAL_ENOMEM, some X) := by
  simp only [XLALReorderFFTWtoSFT, if_neg hX, hm]

theorem XLALReorderSFTtoFFTW_nomem {α : Type} (m : Nat → Option (Nat → α))
    (X : List α) (hX : X.length ≠ 0) (hm : m X.length = none) :
    XLALReorderSFTtoFFTW m (some X) = (.error .XLAL_ENOMEM, some X) := by
  simp only [XLALReorderSFTtoFFTW, if_neg hX, hm]

theorem getElem_opt_drop_append_take {α : Type} (X : List α) (p : Nat) (hp : p ≤ X.length)
    (i : Nat) :
    (X.drop p ++ X.take p)[i]? = if i < X.length - p then X[p + i]? else
      if i < X.length then X[i - (X.length - p)]? else none := by
  by_cases h1 : i < X.length - p
  · rw [if_pos h1, List.getElem?_append_left (by rw [List.length_drop]; exact h1),
      List.getElem?_drop]
  · rw [if_neg h1, List.getElem?_append_right (by rw [List.length_drop]; omega),
      List.length_drop, List.getElem?_take]
    by_cases h2 : i < X.length
    · rw [if_pos h2, if_pos (by omega)]
    · rw [if_neg h2, if_neg (by omega)]

theorem SFTtoFFTW_after_FFTWtoSFT {α : Type} (m1 m2 : Nat → Option (Nat → α)) (X : List α)
    (hX : X.length ≠ 0) (h1 : m1 X.length ≠ none) (h2 : m2 X.length ≠ none) :
    XLALReorderSFTtoFFTW m2 (XLALReorderFFTWtoSFT m1 (some X)).2 = (.ok (), some X) := by
  obtain ⟨b1, hb1⟩ := Option.ne_none_iff_exists'.mp h1
  obtain ⟨b2, hb2⟩ := Option.ne_none_iff_exists'.mp h2
  have hP := NhalfPos_le X.length
  have hPN := NhalfPos_add_NhalfNeg X.length
  have hlen : (X.drop (NhalfPos X.length) ++ X.take (NhalfPos X.length)).length
      = X.length := by
    simp only [List.length_append, List.length_drop, List.length_take]
    omega
  have hd : (X.drop (NhalfPos X.length)).length = NhalfNeg X.length := by
    rw [List.length_drop]
    omega
  rw [XLALReorderFFTWtoSFT_ok m1 b1 X hX hb1]
  show XLALReorderSFTtoFFTW m2
    (some (X.drop (NhalfPos X.length) ++ X.take (NhalfPos X.length))) = (.ok (), some X)
  rw [XLALReorderSFTtoFFTW_ok m2 b2 _ (by rw [hlen]; exact hX) (by rw [hlen]; exact hb2), hlen,
    ← hd, List.drop_left, List.take_left, List.take_append_drop]

theorem FFTWtoSFT_after_SFTtoFFTW {α : Type} (m1 m2 : Nat → Option (Nat → α)) (X : List α)
    (hX : X.length ≠ 0) (h1 : m1 X.length ≠ none) (h2 : m2 X.length ≠ none) :
    XLALReorderFFTWtoSFT m2 (XLALReorderSFTtoFFTW m1 (some X)).2 = (.ok (), some X) := by
  obtain ⟨b1, hb1⟩ := Option.ne_none_iff_exists'.mp h1
  obtain ⟨b2, hb2⟩ := Option.ne_none_iff_exists'.mp h2
  have hP := NhalfPos_le X.length
  have hPN := NhalfPos_add_NhalfNeg X.length
  have hlen : (X.drop (NhalfNeg X.length) ++ X.take (NhalfNeg X.length)).length
      = X.length := by
    simp only [List.length_append, List.length_drop, List.length_take]
    omega
  have hd : (X.drop (NhalfNeg X.length)).length = NhalfPos X.length := by
    rw [List.length_drop]
    omega
  rw [XLALReorderSFTtoFFTW_ok m1 b1 X hX hb1]
  show XLALReorderFFTWtoSFT m2
    (some (X.drop (NhalfNeg X.length) ++ X.take (NhalfNeg X.length))) = (.ok (), some X)
  rw [XLALReorderFFTWtoSFT_ok m2 b2 _ (by rw [hlen]; exact hX) (by rw [hlen]; exact hb2), hlen,
    ← hd, List.drop_left, List.take_left, List.take_append_drop]

theorem XLALSFTVectorToLFT_loop_ne_EINVAL {α U : Type} (E : LAL α) (numBins : Nat)
    (startTime deltaT : ℚ) (l : List (SFTtype α U)) :
    ∀ (n : Nat) (lTS : List α),
      XLALSFTVectorToLFT_loop E numBins startTime deltaT n l lTS ≠ .error .XLAL_EINVAL := by
  induction l with
  | nil => intro n lTS; simp [XLALSFTVectorToLFT_loop]
  | cons s rest ih =>
    intro n lTS
    unfold XLALSFTVectorToLFT_loop
    split
    · simp
    · simp only []
      split
      · simp
      · split
        · simp
        · exact ih _ _

/-- A successful call of `XLALSFTVectorToLFT` went through every stage. -/
theorem XLALSFTVectorToLFT_ok_inv {α U : Type} [Zero α] (E : LAL α)
    (firstHead : SFTtype α U) (rest : List (SFTtype α U)) (out : SFTtype α U)
    (r : List Request)
    (h : XLALSFTVectorToLFT E (some (firstHead :: rest)) = (.ok out, r)) :
    ∃ (numTimeSamples : Nat) (lTS : List α) (f : Nat → α) (data : List α),
      firstHead.deltaF ≠ 0 ∧
      toUINT4 ((E.XLALGPSGetREAL8 ((firstHead :: rest).getLast (List.cons_ne_nil _ _)).epoch
          + 1 / firstHead.deltaF - E.XLALGPSGetREAL8 firstHead.epoch)
          / (1 / ((firstHead.data.length : ℚ) * firstHead.deltaF)) + 1 / 2)
        = some numTimeSamples ∧
      XLALSFTVectorToLFT_loop E firstHead.data.length (E.XLALGPSGetREAL8 firstHead.epoch)
          (1 / ((firstHead.data.length : ℚ) * firstHead.deltaF)) 0 (firstHead :: rest)
          (List.replicate numTimeSamples 0) = .ok lTS ∧
      E.XLALCOMPLEX8VectorFFT_LFTplan lTS = some f ∧
      XLALReorderFFTWtoSFT E.XLALMalloc (some ((List.range numTimeSamples).map f))
        = (.ok (), some data) ∧
      out = { name := firstHead.name ++ ":long Fourier transform"
              epoch := firstHead.epoch
              f0 := firstHead.f0
              deltaF := 1 / ((numTimeSamples : ℚ)
                * (1 / ((firstHead.data.length : ℚ) * firstHead.deltaF)))
              sampleUnits := firstHead.sampleUnits
              data := data } := by
  unfold XLALSFTVectorToLFT at h
  simp only [] at h
  split at h
  · simp at h
  rename_i hF
  split at h
  · simp at h
  · rename_i N hN
    split at h
    · simp at h
    split at h
    · simp at h
    split at h
    · simp at h
    split at h
    · simp at h
    split at h
    · simp at h
    split at h
    · simp at h
    · simp at h
    · rename_i lTS hl
      split at h
      · simp at h
      split at h
      · simp at h
      · rename_i f hf
        split at h
        · rename_i data hd
          refine ⟨N, lTS, f, data, hF, hN, hl, hf, hd, ?_⟩
          simp only [Prod.mk.injEq, Result.ok.injEq] at h
          exact h.1.symm
        · simp at h
        · simp at h

theorem toUINT4_half : toUINT4 (1 / 2) = some 0 := by
  unfold toUINT4
  rw [if_pos (by norm_num)]
  have : ⌊(1 / 2 : ℚ)⌋ = 0 := by
    rw [Int.floor_eq_iff]
    norm_num
  rw [this]
  rfl

theorem memcpy_inv {α : Type} (dst : List α) (d : Nat) (src : List α) (s n : Nat)
    (r : List α) (h : memcpy dst d src s n = some r) :
    d + n ≤ dst.length ∧ s + n ≤ src.length ∧ r.length = dst.length ∧
    ∀ i, r[i]? = if d ≤ i ∧ i < d + n then src[s + (i - d)]? else dst[i]? := by
  unfold memcpy at h
  split at h
  · rename_i hc
    obtain ⟨hd, hs⟩ := hc
    simp only [Option.some.injEq] at h
    subst h
    have hlt : ((src.drop s).take n).length = n := by
      rw [List.length_take, List.length_drop]
      omega
    refine ⟨hd, hs, ?_, ?_⟩
    · simp only [List.length_append, List.length_take, List.length_drop]
      omega
    · intro i
      by_cases h1 : i < d
      · rw [if_neg (by omega), List.append_assoc,
          List.getElem?_append_left (by rw [List.length_take]; omega), List.getElem?_take,
          if_pos h1]
      · have hdl : (dst.take d).length = d := by rw [List.length_take]; omega
        rw [List.append_assoc, List.getElem?_append_right (by rw [hdl]; omega), hdl]
        by_cases h2 : i < d + n
        · rw [if_pos ⟨by omega, h2⟩, List.getElem?_append_left (by rw [hlt]; omega),
            List.getElem?_take, if_pos (by omega), List.getElem?_drop]
        · rw [if_neg (by omega), List.getElem?_append_right (by rw [hlt]; omega), hlt,
            List.getElem?_drop]
          congr 1
          omega
  · simp at h

/-- One iteration of the loop that does not abort. -/
theorem XLALSFTVectorToLFT_loop_cons_inv {α U : Type} (E : LAL α) (numBins : Nat)
    (startTime deltaT : ℚ) (n : Nat) (s : SFTtype α U) (rest : List (SFTtype α U))
    (lTS r : List α)
    (h : XLALSFTVectorToLFT_loop E numBins startTime deltaT n (s :: rest) lTS = .ok r) :
    ∃ (out : Nat → α) (b : Nat) (lTS1 : List α),
      E.XLALCOMPLEX8VectorFFT_SFTplan n s.data = some out ∧
      bin0_n E startTime deltaT s = some b ∧
      memcpy lTS b ((List.range numBins).map out) 0 numBins = some lTS1 ∧
      XLALSFTVectorToLFT_loop E numBins startTime deltaT (n + 1) rest lTS1 = .ok r := by
  unfold XLALSFTVectorToLFT_loop at h
  split at h
  · simp at h
  · rename_i out hout
    simp only [] at h
    split at h
    · simp at h
    · rename_i b hb
      split at h
      · simp at h
      · rename_i lTS1 hm
        exact ⟨out, b, lTS1, hout, hb, hm, h⟩

theorem XLALSFTVectorToLFT_loop_length {α U : Type} (E : LAL α) (numBins : Nat)
    (startTime deltaT : ℚ) (l : List (SFTtype α U)) :
    ∀ (n : Nat) (lTS r : List α),
      XLALSFTVectorToLFT_loop E numBins startTime deltaT n l lTS = .ok r →
      r.length = lTS.length := by
  induction l with
  | nil =>
    intro n lTS r h
    simp only [XLALSFTVectorToLFT_loop, Result.ok.injEq] at h
    rw [h]
  | cons s rest ih =>
    intro n lTS r h
    obtain ⟨out, b, lTS1, _, _, hm, hr⟩ :=
      XLALSFTVectorToLFT_loop_cons_inv E numBins startTime deltaT n s rest lTS r h
    rw [ih _ _ _ hr]
    exact (memcpy_inv _ _ _ _ _ _ hm).2.2.1

theorem toUINT4_inv (x : ℚ) (b : Nat) (h : toUINT4 x = some b) :
    -1 < x ∧ x < 4294967296 ∧ b = Int.toNat ⌊x⌋ := by
  unfold toUINT4 at h
  split at h
  · rename_i hc
    simp only [Option.some.injEq] at h
    exact ⟨hc.1, hc.2, h.symm⟩
  · simp at h

/-- For `x >= -1/2` the conversion `(UINT4)(x + 0.5)` rounds `x` to the nearest
integer, ties upward. -/
theorem toUINT4_eq_round (x : ℚ) (b : Nat) (h : toUINT4 (x + 1 / 2) = some b)
    (hx : -(1 / 2) ≤ x) : (b : ℤ) = round x := by
  obtain ⟨_, _, hb⟩ := toUINT4_inv _ _ h
  rw [round_eq, hb, Int.toNat_of_nonneg]
  apply Int.floor_nonneg.mpr
  linarith

/-- A successful `XLALReorderFFTWtoSFT` was given a non-empty buffer and rotated
it. -/
theorem XLALReorderFFTWtoSFT_ok_inv {α : Type} (m : Nat → Option (Nat → α)) (X Y : List α)
    (h : XLALReorderFFTWtoSFT m (some X) = (.ok (), some Y)) :
    X.length ≠ 0 ∧ Y = X.drop (NhalfPos X.length) ++ X.take (NhalfPos X.length) ∧
    Y.length = X.length := by
  by_cases hX : X.length = 0
  · have hnil : X = [] := List.length_eq_zero.mp hX
    subst hnil
    simp [XLALReorderFFTWtoSFT] at h
  · cases hm : m X.length with
    | none =>
      rw [XLALReorderFFTWtoSFT_nomem m X hX hm] at h
      simp at h
    | some block =>
      rw [XLALReorderFFTWtoSFT_ok m block X hX hm] at h
      simp only [Prod.mk.injEq, Option.some.injEq, true_and] at h
      refine ⟨hX, h.symm, ?_⟩
      rw [← h]
      have := NhalfPos_le X.length
      simp only [List.length_append, List.length_drop, List.length_take]
      omega

/-- What a successful call of `XLALSFTVectorToLFT` returns, in terms of the
stages it went through. -/
theorem XLALSFTVectorToLFT_ok_data {α U : Type} [Zero α] (E : LAL α)
    (firstHead : SFTtype α U) (rest : List (SFTtype α U)) (out : SFTtype α U)
    (r : List Request)
    (h : XLALSFTVectorToLFT E (some (firstHead :: rest)) = (.ok out, r)) :
    ∃ (lTS : List α) (f : Nat → α),
      out.data.length ≠ 0 ∧ firstHead.deltaF ≠ 0 ∧
      toUINT4 ((E.XLALGPSGetREAL8 ((firstHead :: rest).getLast (List.cons_ne_nil _ _)).epoch
          + 1 / firstHead.deltaF - E.XLALGPSGetREAL8 firstHead.epoch)
          / (1 / ((firstHead.data.length : ℚ) * firstHead.deltaF)) + 1 / 2)
        = some out.data.length ∧
      XLALSFTVectorToLFT_loop E firstHead.data.length (E.XLALGPSGetREAL8 firstHead.epoch)
          (1 / ((firstHead.data.length : ℚ) * firstHead.deltaF)) 0 (firstHead :: rest)
          (List.replicate out.data.length 0) = .ok lTS ∧
      lTS.length = out.data.length ∧
      E.XLALCOMPLEX8VectorFFT_LFTplan lTS = some f ∧
      XLALReorderFFTWtoSFT E.XLALMalloc (some ((List.range out.data.length).map f))
        = (.ok (), some out.data) ∧
      out.deltaF = 1 / ((out.data.length : ℚ)
        * (1 / ((firstHead.data.length : ℚ) * firstHead.deltaF))) ∧
      out.name = firstHead.name ++ ":long Fourier transform" ∧
      out.epoch = firstHead.epoch ∧ out.f0 = firstHead.f0 ∧
      out.sampleUnits = firstHead.sampleUnits := by
  obtain ⟨N, lTS, f, data, hF, hN, hl, hf, hd, ho⟩ :=
    XLALSFTVectorToLFT_ok_inv E firstHead rest out r h
  obtain ⟨hne, _, hlen⟩ := XLALReorderFFTWtoSFT_ok_inv _ _ _ hd
  simp only [List.length_map, List.length_range] at hne hlen
  have hdata : out.data = data := by rw [ho]
  have hlen' : out.data.length = N := by rw [hdata, hlen]
  have hlTS : lTS.length = N := by
    rw [XLALSFTVectorToLFT_loop_length E _ _ _ _ 0 _ lTS hl, List.length_replicate]
  rw [hlen']
  refine ⟨lTS, f, hne, hF, hN, hl, hlTS, hf, ?_, ?_, ?_, ?_, ?_, ?_⟩
  · rw [hdata]; exact hd
  all_goals rw [ho]

/-- Value of the loop of `choose` when `b <= a` and the factors stay below
`2^32`: both products, reduced modulo `2^32`. -/
theorem choose_while_eq (a b : Nat) (hba : b ≤ a) :
    ∀ (k numer denom : Nat), a - b + k < 4294967296 →
      numer < 4294967296 → denom < 4294967296 →
      choose_while a b k numer denom
        = (numer * (a - b + 1).ascFactorial k % 4294967296,
           denom * k.factorial % 4294967296) := by
  intro k
  induction k with
  | zero =>
    intro numer denom _ hn hd
    simp [choose_while, Nat.mod_eq_of_lt hn, Nat.mod_eq_of_lt hd]
  | succ k ih =>
    intro numer denom hk hn hd
    have hf : (a + 4294967296 - b + (k + 1)) % 4294967296 = a - b + 1 + k := by
      have : a + 4294967296 - b + (k + 1) = (a - b + 1 + k) + 4294967296 := by omega
      rw [this, Nat.add_mod_right, Nat.mod_eq_of_lt (by omega)]
    unfold choose_while
    rw [hf, ih _ _ (by omega) (Nat.mod_lt _ (by norm_num)) (Nat.mod_lt _ (by norm_num)),
      Nat.mod_mul_mod, Nat.mod_mul_mod, Nat.ascFactorial_succ, Nat.factorial_succ]
    congr 2 <;> ring

theorem factorial_lt_two_pow_32 (b : Nat) (h : b.factorial < 4294967296) : b < 13 := by
  by_contra hc
  have h13 : (13 : Nat).factorial ≤ b.factorial := Nat.factorial_le (by omega)
  have : (13 : Nat).factorial = 6227020800 := by decide
  omega

/-- The value of `choose` when `b <= a` and the falling factorial
`a (a-1) ... (a-b+1)` is below `2^32`. -/
theorem choose_eq_binomial (a b : Nat) (ha : a < 4294967296) (hba : b ≤ a)
    (hff : a.descFactorial b < 4294967296) : choose a b = some (a.choose b) := by
  have hmul : a.descFactorial b = b.factorial * a.choose b :=
    Nat.descFactorial_eq_factorial_mul_choose a b
  have hpos : 0 < a.choose b := Nat.choose_pos hba
  have hfact : b.factorial ≤ a.descFactorial b := by
    rw [hmul]
    exact Nat.le_mul_of_pos_right _ hpos
  have hb13 : b < 13 := factorial_lt_two_pow_32 b (by omega)
  have hasc : (a - b + 1).ascFactorial b = a.descFactorial b := by
    have := Nat.add_descFactorial_eq_ascFactorial (a - b) b
    rw [← this]
    congr 1
    omega
  have hw := choose_while_eq a b hba b 1 1 (by omega) (by norm_num) (by norm_num)
  unfold choose
  have hidx : ((b + 1) % 4294967296 + 4294967296 - 1) % 4294967296 = b := by
    have h1 : (b + 1) % 4294967296 = b + 1 := Nat.mod_eq_of_lt (by omega)
    have h2 : b + 1 + 4294967296 - 1 = b + 4294967296 := by omega
    rw [h1, h2, Nat.add_mod_right, Nat.mod_eq_of_lt (by omega)]
  simp only [hidx, hw, one_mul, hasc]
  rw [Nat.mod_eq_of_lt hff, Nat.mod_eq_of_lt (by omega), if_neg (Nat.factorial_pos b).ne',
    Nat.choose_eq_descFactorial_div_factorial]

/-- A copy loop of `main` whose indices stay inside both vectors: the `count`
samples from `k0` on, multiplied by `fact`, are written at `k1, k1 + 1, ...`. -/
theorem main_copyLoop_spec {K : Type} [Field K] (fact : K) (inputSFT : List K) :
    ∀ (count k0 : Nat) (st : CopyState K), k0 + count ≤ inputSFT.length →
      st.k1 + count ≤ st.SSBsftData.length →
      ∃ st1, main_copyLoop fact inputSFT count k0 st = some st1 ∧
        st1.SSBsftData.length = st.SSBsftData.length ∧ st1.k1 = st.k1 + count ∧
        st1.written = st.written ++ List.range' st.k1 count ∧
        ∀ i : Nat, st1.SSBsftData[i]? =
          if st.k1 ≤ i ∧ i < st.k1 + count then
            (inputSFT[k0 + (i - st.k1)]?).map fun x => fact * x
          else st.SSBsftData[i]? := by
  intro count
  induction count with
  | zero =>
    intro k0 st _ _
    refine ⟨st, rfl, rfl, rfl, by simp, ?_⟩
    intro i
    rw [if_neg (by omega)]
  | succ count ih =>
    intro k0 st h0 h1
    have hk0 : k0 < inputSFT.length := by omega
    have hk1 : st.k1 < st.SSBsftData.length := by omega
    have hx : inputSFT[k0]? = some inputSFT[k0] := List.getElem?_eq_getElem hk0
    obtain ⟨st2, hrun, hlen, hk, hw, hget⟩ := ih (k0 + 1)
      { SSBsftData := st.SSBsftData.set st.k1 (fact * inputSFT[k0])
        k1 := st.k1 + 1
        written := st.written ++ [st.k1] }
      (by omega) (by simp only [List.length_set]; omega)
    dsimp only at hlen hk hw hget
    refine ⟨st2, ?_, ?_, ?_, ?_, ?_⟩
    · simp only [main_copyLoop, main_copyStep, hx, if_pos hk1]
      exact hrun
    · rw [hlen, List.length_set]
    · rw [hk]
      omega
    · rw [hw, List.append_assoc]
      rfl
    · intro i
      rw [hget i]
      simp only [List.getElem?_set]
      by_cases hi : st.k1 = i
      · subst hi
        rw [if_neg (by omega), if_pos rfl, if_pos hk1, if_pos ⟨le_rfl, by omega⟩,
          Nat.sub_self, Nat.add_zero, hx]
        rfl
      · by_cases hr : st.k1 + 1 ≤ i ∧ i < st.k1 + 1 + count
        · rw [if_pos hr, if_pos ⟨by omega, by omega⟩]
          congr 2
          omega
        · rw [if_neg hr, if_neg hi, if_neg (by omega)]

/-- The demodulation of one SFT with `N1 = N0` bins: every bin is written once,
in ascending order, and bin `i` holds `fact` times the input bin the centered ->
native reordering puts at `i`. -/
theorem main_demodulate_spec {K : Type} [Field K] (N0 : Nat) (inputSFT : List K)
    (hlen : inputSFT.length = N0) :
    ∃ st, main_demodulate N0 N0 inputSFT = some st ∧ st.SSBsftData.length = N0 ∧
      st.k1 = N0 ∧ st.written = List.range N0 ∧
      ∀ i : Nat, st.SSBsftData[i]? =
        ((inputSFT.drop (NhalfNeg N0) ++ inputSFT.take (NhalfNeg N0))[i]?).map
          fun x => 1 / (N0 : K) * x := by
  have hP := NhalfPos_le N0
  have hPN := NhalfPos_add_NhalfNeg N0
  have hNg : N0 - NhalfPos N0 = NhalfNeg N0 := rfl
  obtain ⟨st1, hrun1, hl1, hk1, hw1, hg1⟩ := main_copyLoop_spec (1 / (N0 : K)) inputSFT
    (N0 - NhalfNeg N0) (NhalfNeg N0)
    { SSBsftData := List.replicate N0 0, k1 := 0, written := [] }
    (by omega) (by simp only [List.length_replicate]; omega)
  simp only [List.length_replicate, zero_add, List.nil_append] at hl1 hk1 hw1 hg1
  obtain ⟨st2, hrun2, hl2, hk2, hw2, hg2⟩ := main_copyLoop_spec (1 / (N0 : K)) inputSFT
    (NhalfNeg N0) 0 st1 (by omega) (by rw [hl1, hk1]; omega)
  refine ⟨st2, ?_, ?_, ?_, ?_, ?_⟩
  · simp only [main_demodulate, hNg, hrun1, Nat.sub_zero]
    exact hrun2
  · rw [hl2, hl1]
  · rw [hk2, hk1]
    omega
  · have hr := List.range'_append_1 0 (N0 - NhalfNeg N0) (NhalfNeg N0)
    rw [zero_add] at hr
    rw [hw2, hw1, hk1, List.range_eq_range', hr]
    congr 1
    omega
  · intro i
    rw [hg2 i, hk1, getElem_opt_drop_append_take inputSFT _ (by omega), hlen]
    by_cases h1 : i < N0 - NhalfNeg N0
    · rw [if_neg (by omega), hg1 i, if_pos ⟨Nat.zero_le _, h1⟩, if_pos h1, Nat.sub_zero]
    · by_cases h2 : i < N0
      · rw [if_pos ⟨by omega, by omega⟩, if_neg h1, if_pos h2, zero_add]
      · rw [if_neg (by omega), hg1 i, if_neg (by omega), if_neg h1, if_neg h2,
          List.getElem?_replicate, if_neg h2]
        rfl

/-- Orthogonality of the powers of a primitive root of unity. -/
theorem sum_pow_primitiveRoot {K : Type} [Field K] (w : K) (N : Nat)
    (hw : IsPrimitiveRoot w N) (j l : Nat) (hj : j < N) (hl : l < N) :
    ∑ k ∈ Finset.range N, w ^ (j * k) * w⁻¹ ^ (k * l) = if j = l then (N : K) else 0 := by
  have hN : N ≠ 0 := by omega
  have hw0 : w ≠ 0 := hw.ne_zero hN
  have hterm : ∀ k : Nat, w ^ (j * k) * w⁻¹ ^ (k * l) = (w ^ j * w⁻¹ ^ l) ^ k := by
    intro k
    rw [mul_pow, ← pow_mul, ← pow_mul, Nat.mul_comm l k]
  simp only [hterm]
  by_cases hjl : j = l
  · subst hjl
    rw [if_pos rfl]
    have h1 : w ^ j * w⁻¹ ^ j = 1 := by
      rw [← mul_pow, mul_inv_cancel₀ hw0, one_pow]
    rw [h1]
    simp only [one_pow, Finset.sum_const, Finset.card_range, nsmul_eq_mul, mul_one]
  · rw [if_neg hjl]
    have hne : w ^ j * w⁻¹ ^ l - 1 ≠ 0 := by
      intro h
      have h2 : w ^ j * w⁻¹ ^ l = 1 := sub_eq_zero.mp h
      have h3 : w ^ j = w ^ l := by
        have h4 := congrArg (fun t => t * w ^ l) h2
        simp only [one_mul] at h4
        rw [mul_assoc, ← mul_pow, inv_mul_cancel₀ hw0, one_pow, mul_one] at h4
        exact h4
      exact hjl (hw.pow_inj hj hl h3)
    have hpow : (w ^ j * w⁻¹ ^ l) ^ N = 1 := by
      rw [mul_pow, ← pow_mul, ← pow_mul, Nat.mul_comm j N, Nat.mul_comm l N, pow_mul, pow_mul,
        hw.pow_eq_one, inv_pow, hw.pow_eq_one]
      simp
    have hg := geom_sum_mul (w ^ j * w⁻¹ ^ l) N
    rw [hpow, sub_self] at hg
    exact (mul_eq_zero.mp hg).resolve_right hne

theorem getD_map_range {K : Type} [Zero K] (f : Nat → K) (N k : Nat) (hk : k < N) :
    ((List.range N).map f).getD k 0 = f k := by
  rw [List.getD_eq_getElem?_getD, List.getElem?_map, List.getElem?_range hk]
  rfl

/-- The forward transform of the reverse transform of `x` is `N` times `x`. -/
theorem dft_inv_dft {K : Type} [Field K] (w : K) (N : Nat) (hw : IsPrimitiveRoot w N)
    (x : List K) (hx : x.length = N) (l : Nat) (hl : l < N) :
    dft w⁻¹ ((List.range N).map (dft w x)) l = (N : K) * x.getD l 0 := by
  unfold dft
  simp only [List.length_map, List.length_range, hx]
  have h1 : ∀ k ∈ Finset.range N,
      ((List.range N).map fun k => ∑ j ∈ Finset.range N, x.getD j 0 * w ^ (j * k)).getD k 0
        * w⁻¹ ^ (k * l)
      = ∑ j ∈ Finset.range N, x.getD j 0 * (w ^ (j * k) * w⁻¹ ^ (k * l)) := by
    intro k hk
    rw [getD_map_range _ N k (Finset.mem_range.mp hk), Finset.sum_mul]
    apply Finset.sum_congr rfl
    intro j _
    ring
  rw [Finset.sum_congr rfl h1, Finset.sum_comm]
  have h2 : ∀ j ∈ Finset.range N,
      ∑ k ∈ Finset.range N, x.getD j 0 * (w ^ (j * k) * w⁻¹ ^ (k * l))
      = if j = l then (N : K) * x.getD l 0 else 0 := by
    intro j hj
    rw [← Finset.mul_sum, sum_pow_primitiveRoot w N hw j l (Finset.mem_range.mp hj) hl]
    by_cases hjl : j = l
    · subst hjl
      rw [if_pos rfl, if_pos rfl, mul_comm]
    · rw [if_neg hjl, if_neg hjl, mul_zero]
  rw [Finset.sum_congr rfl h2, Finset.sum_ite_eq' (Finset.range N) l, if_pos (Finset.mem_range.mpr hl)]

/-- The transform is linear: a common factor of the samples comes out. -/
theorem dft_map_mul {K : Type} [Field K] (w c : K) (x : List K) (k : Nat) :
    dft w (x.map fun v => c * v) k = c * dft w x k := by
  unfold dft
  rw [List.length_map, Finset.mul_sum]
  apply Finset.sum_congr rfl
  intro j hj
  have hj2 : j < x.length := Finset.mem_range.mp hj
  rw [List.getD_eq_getElem?_getD, List.getD_eq_getElem?_getD, List.getElem?_map,
    List.getElem?_eq_getElem hj2]
  simp only [Option.map_some', Option.getD_some]
  ring

/-- With exact transforms the forward transform of the inverse transform of `x`
is the list of the samples of `x` multiplied by their number. -/
theorem map_dft_inv_dft {K : Type} [Field K] (w : K) (x : List K)
    (hw : IsPrimitiveRoot w x.length) :
    (List.range x.length).map (dft w⁻¹ ((List.range x.length).map (dft w x)))
      = x.map fun v => (x.length : K) * v := by
  apply List.ext_getElem?
  intro i
  rw [List.getElem?_map, List.getElem?_map]
  by_cases hi : i < x.length
  · rw [List.getElem?_range hi, List.getElem?_eq_getElem hi]
    simp only [Option.map_some', Option.some.injEq]
    rw [dft_inv_dft w x.length hw x rfl i hi, List.getD_eq_getElem?_getD,
      List.getElem?_eq_getElem hi]
    rfl
  · rw [List.getElem?_eq_none (by simp only [List.length_range]; omega),
      List.getElem?_eq_none (by omega)]
    rfl

theorem natCast_ne_zero_of_primitiveRoot {K : Type} [Field K] (w : K) (N : Nat)
    (hN : 1 ≤ N) (hw : IsPrimitiveRoot w N) : (N : K) ≠ 0 := by
  haveI : NeZero N := ⟨by omega⟩
  exact (hw.neZero').ne

theorem toINT4_eq (x : Int) (h1 : -2147483648 ≤ x) (h2 : x < 2147483648) : toINT4 x = x := by
  unfold toINT4
  omega

/-- The remainder of a truncating division lies strictly between `-b` and `b` and
is not negative for a dividend that is not. -/
theorem tmod_bounds (t b : Int) (hb : 0 < b) :
    -b < Int.tmod t b ∧ Int.tmod t b < b ∧ (0 ≤ t → 0 ≤ Int.tmod t b) := by
  refine ⟨?_, Int.tmod_lt_of_pos t hb, fun h => Int.tmod_nonneg b h⟩
  by_cases h : 0 ≤ t
  · have := Int.tmod_nonneg b h
    omega
  · have h1 : Int.tmod t b = -Int.tmod (-t) b := by
      rw [Int.tmod_def, Int.tmod_def, Int.neg_tdiv]
      ring
    have h2 := Int.tmod_lt_of_pos (-t) hb
    omega

/-- When the quotient is an `INT4`, `I8ToLIGOTimeGPS` stores the truncated
quotient and the remainder of the division by `10^9`. -/
theorem I8ToLIGOTimeGPS_eq (t : Int)
    (hlo : -2147483648 ≤ Int.tdiv t 1000000000) (hhi : Int.tdiv t 1000000000 < 2147483648) :
    I8ToLIGOTimeGPS t
      = { gpsSeconds := Int.tdiv t 1000000000, gpsNanoSeconds := Int.tmod t 1000000000 } := by
  have hb := tmod_bounds t 1000000000 (by norm_num)
  have hr : t - 1000000000 * Int.tdiv t 1000000000 = Int.tmod t 1000000000 := by
    rw [Int.tmod_def]
  unfold I8ToLIGOTimeGPS
  simp only []
  rw [hr, toINT4_eq _ hlo hhi, toINT4_eq _ (by omega) (by omega)]

/-- The denominator computed by the loop of `choose` is the factorial, reduced
modulo `2^32`. -/
theorem choose_while_denom (a b : Nat) :
    ∀ (k numer denom : Nat), denom < 4294967296 →
      (choose_while a b k numer denom).2 = denom * k.factorial % 4294967296 := by
  intro k
  induction k with
  | zero =>
    intro n d hd
    simp only [choose_while, Nat.factorial_zero, Nat.mul_one]
    exact (Nat.mod_eq_of_lt hd).symm
  | succ k ih =>
    intro n d _
    simp only [choose_while]
    rw [ih _ _ (Nat.mod_lt _ (by norm_num)), Nat.mod_mul_mod, Nat.factorial_succ]
    ring_nf

/-- With more fuel than iterations the stepwise loop of `choose` ends, having run
its body as often as the value of `index` after the first decrement, with the
products of `choose_while`. -/
theorem choose_loop_eq (a b : Nat) :
    ∀ (k fuel index numer denom iterations : Nat), k < 4294967296 →
      (index + 4294967296 - 1) % 4294967296 = k → k < fuel →
      choose_loop a b fuel index numer denom iterations
        = some ((choose_while a b k numer denom).1, (choose_while a b k numer denom).2,
            iterations + k) := by
  intro k
  induction k with
  | zero =>
    intro fuel index n d it _ hidx hf
    obtain ⟨f, rfl⟩ : ∃ f, fuel = f + 1 := ⟨fuel - 1, by omega⟩
    simp only [choose_loop, hidx, if_pos, choose_while, Nat.add_zero]
  | succ k ih =>
    intro fuel index n d it hk hidx hf
    obtain ⟨f, rfl⟩ : ∃ f, fuel = f + 1 := ⟨fuel - 1, by omega⟩
    simp only [choose_loop, hidx, choose_while]
    rw [if_neg (by omega), ih f (k + 1) _ _ (it + 1) (by omega) (by omega) (by omega)]
    have : it + 1 + k = it + (k + 1) := by omega
    rw [this]

theorem factorial_mod_two_pow_32 (b : Nat) :
    (b ≤ 33 → b.factorial % 4294967296 ≠ 0) ∧
    (34 ≤ b → b.factorial % 4294967296 = 0) := by
  constructor
  · intro h
    interval_cases b <;> decide
  · intro h
    have h1 : 4294967296 ∣ (34 : Nat).factorial := by decide
    exact Nat.mod_eq_zero_of_dvd (h1.trans (Nat.factorial_dvd_factorial h))

/-- What one execution of the body of the parsing loop can do. -/
theorem main_parseBody_cases (atoi : String → Int) (atof : String → ℚ) (argv : List String)
    (st : ParseState) :
    main_parseBody atoi atof argv st = .returned SIMULATETAYLORCWTESTC_EARG ∨
    (∃ st1, main_parseBody atoi atof argv st = .next st1 ∧
      (st1.arg = st.arg + 2 ∨ st1.arg = st.arg + 4 ∨ st1.arg = st.arg + 5)) ∨
    ((argv.getD st.arg "").data.head? ≠ some '-' ∧
      main_parseBody atoi atof argv st = .next st) := by
  unfold main_parseBody
  simp only []
  split_ifs
  all_goals first
    | (left; rfl)
    | (right; left; exact ⟨_, rfl, Or.inl rfl⟩)
    | (right; left; exact ⟨_, rfl, Or.inr (Or.inl rfl)⟩)
    | (right; left; exact ⟨_, rfl, Or.inr (Or.inr rfl)⟩)
    | (right; right; exact ⟨by assumption, rfl⟩)

/-- A word that does not begin with `-` matches no branch of the body: the
variables, `arg` among them, stay as they are. -/
theorem main_parseBody_stall (atoi : String → Int) (atof : String → ℚ) (argv : List String)
    (st : ParseState) (hw : (argv.getD st.arg "").data.head? ≠ some '-') :
    main_parseBody atoi atof argv st = .next st := by
  have ne : ∀ o : String, o.data.head? = some '-' → argv.getD st.arg "" ≠ o := by
    intro o ho heq
    rw [heq] at hw
    exact hw ho
  unfold main_parseBody
  simp only []
  rw [if_neg (ne "-s" (by decide)), if_neg (ne "-r" (by decide)), if_neg (ne "-o" (by decide)),
    if_neg (ne "-l" (by decide)), if_neg (ne "-t" (by decide)), if_neg (ne "-d" (by decide)),
    if_neg hw]

/-- Once the body leaves the variables as they are, the loop never ends. -/
theorem main_parseLoop_stall (atoi : String → Int) (atof : String → ℚ) (argv : List String)
    (st : ParseState) (h : st.arg < argv.length)
    (hs : main_parseBody atoi atof argv st = .next st) :
    ∀ fuel : Nat, main_parseLoop atoi atof argv fuel st = none := by
  intro fuel
  induction fuel with
  | zero => rfl
  | succ f ih =>
    unfold main_parseLoop
    rw [if_pos h, hs]
    exact ih

/-- When every word from `arg` on begins with `-`, the loop ends within
`argc - arg + 1` evaluations of its condition. -/
theorem main_parseLoop_terminates (atoi : String → Int) (atof : String → ℚ)
    (argv : List String) :
    ∀ (fuel : Nat) (st : ParseState), 1 ≤ fuel → argv.length + 1 ≤ st.arg + fuel →
      (∀ i, st.arg ≤ i → i < argv.length → (argv.getD i "").data.head? = some '-') →
      ∃ r, main_parseLoop atoi atof argv fuel st = some r := by
  intro fuel
  induction fuel with
  | zero => intro st h1; omega
  | succ f ih =>
    intro st _ hlen hdash
    unfold main_parseLoop
    by_cases h : st.arg < argv.length
    · rw [if_pos h]
      rcases main_parseBody_cases atoi atof argv st with hr | ⟨st1, hn, harg⟩ | ⟨hw, _⟩
      · rw [hr]
        exact ⟨_, rfl⟩
      · rw [hn]
        exact ih st1 (by omega) (by omega) (fun i hi hil => hdash i (by omega) hil)
      · exact absurd (hdash st.arg le_rfl h) hw
    · rw [if_neg h]
      exact ⟨_, rfl⟩

/-! ### The embedding with `REAL8` arithmetic -/

/-- One iteration of the `REAL8` loop, for the contents of the long buffer. -/
theorem XLALSFTVectorToLFT_loop_REAL8_fst_cons {α U : Type} (E : LAL α) (numBins : Nat)
    (startTime deltaT : ℚ) (n : Nat) (s : SFTtype α U) (rest : List (SFTtype α U))
    (lTS : List α) :
    (XLALSFTVectorToLFT_loop_REAL8 E numBins startTime deltaT n (s :: rest) lTS).1
      = match E.XLALCOMPLEX8VectorFFT_SFTplan n s.data with
        | none => .error .XLAL_EFUNC
        | some out =>
          match bin0_n_REAL8 E startTime deltaT s with
          | none => .undefined
          | some bin0 =>
            match memcpy lTS bin0 ((List.range numBins).map out) 0 numBins with
            | none => .undefined
            | some lTS1 =>
              (XLALSFTVectorToLFT_loop_REAL8 E numBins startTime deltaT (n + 1) rest lTS1).1 := by
  conv_lhs => rw [XLALSFTVectorToLFT_loop_REAL8]
  cases E.XLALCOMPLEX8VectorFFT_SFTplan n s.data with
  | none => rfl
  | some out =>
    simp only []
    cases bin0_n_REAL8 E startTime deltaT s with
    | none => rfl
    | some b =>
      simp only []
      cases memcpy lTS b ((List.range numBins).map out) 0 numBins with
      | none => rfl
      | some l => rfl

/-- One iteration of the `REAL8` loop that does not abort. -/
theorem XLALSFTVectorToLFT_loop_REAL8_cons_inv {α U : Type} (E : LAL α) (numBins : Nat)
    (startTime deltaT : ℚ) (n : Nat) (s : SFTtype α U) (rest : List (SFTtype α U))
    (lTS r : List α)
    (h : (XLALSFTVectorToLFT_loop_REAL8 E numBins startTime deltaT n (s :: rest) lTS).1
      = .ok r) :
    ∃ (out : Nat → α) (b : Nat) (lTS1 : List α),
      E.XLALCOMPLEX8VectorFFT_SFTplan n s.data = some out ∧
      bin0_n_REAL8 E startTime deltaT s = some b ∧
      memcpy lTS b ((List.range numBins).map out) 0 numBins = some lTS1 ∧
      (XLALSFTVectorToLFT_loop_REAL8 E numBins startTime deltaT (n + 1) rest lTS1).1
        = .ok r := by
  rw [XLALSFTVectorToLFT_loop_REAL8_fst_cons] at h
  split at h
  · simp at h
  · rename_i out hout
    split at h
    · simp at h
    · rename_i b hb
      split at h
      · simp at h
      · rename_i lTS1 hm
        exact ⟨out, b, lTS1, hout, hb, hm, h⟩

theorem XLALSFTVectorToLFT_loop_REAL8_length {α U : Type} (E : LAL α) (numBins : Nat)
    (startTime deltaT : ℚ) (l : List (SFTtype α U)) :
    ∀ (n : Nat) (lTS r : List α),
      (XLALSFTVectorToLFT_loop_REAL8 E numBins startTime deltaT n l lTS).1 = .ok r →
      r.length = lTS.length := by
  induction l with
  | nil =>
    intro n lTS r h
    simp only [XLALSFTVectorToLFT_loop_REAL8, Result.ok.injEq] at h
    rw [h]
  | cons s rest ih =>
    intro n lTS r h
    obtain ⟨out, b, lTS1, _, _, hm, hr⟩ :=
      XLALSFTVectorToLFT_loop_REAL8_cons_inv E numBins startTime deltaT n s rest lTS r h
    rw [ih _ _ _ hr]
    exact (memcpy_inv _ _ _ _ _ _ hm).2.2.1

/-- Samples outside every placement range are left as they were. -/
theorem XLALSFTVectorToLFT_loop_REAL8_untouched {α U : Type} (E : LAL α) (numBins : Nat)
    (startTime deltaT : ℚ) (l : List (SFTtype α U)) (i : Nat) :
    ∀ (n : Nat) (lTS r : List α),
      (XLALSFTVectorToLFT_loop_REAL8 E numBins startTime deltaT n l lTS).1 = .ok r →
      (∀ (k : Nat) (hk : k < l.length) (b : Nat),
        bin0_n_REAL8 E startTime deltaT (l.get ⟨k, hk⟩) = some b →
        ¬ (b ≤ i ∧ i < b + numBins)) →
      r[i]? = lTS[i]? := by
  induction l with
  | nil =>
    intro n lTS r h _
    simp only [XLALSFTVectorToLFT_loop_REAL8, Result.ok.injEq] at h
    rw [h]
  | cons s rest ih =>
    intro n lTS r h hun
    obtain ⟨out, b, lTS1, _, hb, hm, hr⟩ :=
      XLALSFTVectorToLFT_loop_REAL8_cons_inv E numBins startTime deltaT n s rest lTS r h
    have h1 : r[i]? = lTS1[i]? := by
      apply ih _ _ _ hr
      intro k hk b' hb'
      exact hun (k + 1) (by simp only [List.length_cons]; omega) b' hb'
    have h0 := hun 0 (by simp) b hb
    rw [h1, (memcpy_inv _ _ _ _ _ _ hm).2.2.2 i, if_neg h0]

/-- The last segment whose placement range contains an index determines the
sample there. -/
theorem XLALSFTVectorToLFT_loop_REAL8_last_wins {α U : Type} (E : LAL α) (numBins : Nat)
    (startTime deltaT : ℚ) (l : List (SFTtype α U)) (i : Nat) :
    ∀ (n : Nat) (lTS r : List α),
      (XLALSFTVectorToLFT_loop_REAL8 E numBins startTime deltaT n l lTS).1 = .ok r →
      ∀ (m : Nat) (hm : m < l.length) (b : Nat),
        bin0_n_REAL8 E startTime deltaT (l.get ⟨m, hm⟩) = some b → b ≤ i →
        i < b + numBins →
        (∀ (k : Nat) (hk : k < l.length) (b' : Nat), m < k →
          bin0_n_REAL8 E startTime deltaT (l.get ⟨k, hk⟩) = some b' →
          ¬ (b' ≤ i ∧ i < b' + numBins)) →
        ∃ out, E.XLALCOMPLEX8VectorFFT_SFTplan (n + m) (l.get ⟨m, hm⟩).data = some out ∧
          r[i]? = some (out (i - b)) := by
  induction l with
  | nil => intro n lTS r _ m hm; simp at hm
  | cons s rest ih =>
    intro n lTS r h m hm b hb hbi hib hlater
    obtain ⟨out, b0, lTS1, hout, hb0, hcp, hr⟩ :=
      XLALSFTVectorToLFT_loop_REAL8_cons_inv E numBins startTime deltaT n s rest lTS r h
    cases m with
    | zero =>
      simp only [List.get_eq_getElem, List.getElem_cons_zero] at hb
      rw [hb0] at hb
      simp only [Option.some.injEq] at hb
      subst hb
      refine ⟨out, hout, ?_⟩
      have h1 : r[i]? = lTS1[i]? := by
        apply XLALSFTVectorToLFT_loop_REAL8_untouched E numBins startTime deltaT rest i _ _ _ hr
        intro k hk b' hb'
        exact hlater (k + 1) (by simp only [List.length_cons]; omega) b' (by omega) hb'
      rw [h1, (memcpy_inv _ _ _ _ _ _ hcp).2.2.2 i, if_pos ⟨hbi, hib⟩]
      simp only [zero_add, List.getElem?_map]
      rw [List.getElem?_range (by omega)]
      rfl
    | succ m =>
      have hm' : m < rest.length := by simp only [List.length_cons] at hm; omega
      obtain ⟨out', ho', hr'⟩ := ih (n + 1) lTS1 r hr m hm' b hb hbi hib (by
        intro k hk b' hmk hb'
        exact hlater (k + 1) (by simp only [List.length_cons]; omega) b' (by omega) hb')
      refine ⟨out', ?_, hr'⟩
      have : n + (m + 1) = n + 1 + m := by omega
      rw [this]
      exact ho'

/-- In a `REAL8` loop that runs to its end every inverse transform succeeded and
every segment has a placement inside the buffer. -/
theorem XLALSFTVectorToLFT_loop_REAL8_in_range {α U : Type} (E : LAL α) (numBins : Nat)
    (startTime deltaT : ℚ) (l : List (SFTtype α U)) :
    ∀ (n : Nat) (lTS r : List α),
      (XLALSFTVectorToLFT_loop_REAL8 E numBins startTime deltaT n l lTS).1 = .ok r →
      ∀ (k : Nat) (hk : k < l.length),
        E.XLALCOMPLEX8VectorFFT_SFTplan (n + k) (l.get ⟨k, hk⟩).data ≠ none ∧
        ∃ b, bin0_n_REAL8 E startTime deltaT (l.get ⟨k, hk⟩) = some b ∧
          b + numBins ≤ lTS.length := by
  induction l with
  | nil => intro n lTS r _ k hk; simp at hk
  | cons s rest ih =>
    intro n lTS r h k hk
    obtain ⟨out, b0, lTS1, hout, hb0, hcp, hr⟩ :=
      XLALSFTVectorToLFT_loop_REAL8_cons_inv E numBins startTime deltaT n s rest lTS r h
    have hinv := memcpy_inv _ _ _ _ _ _ hcp
    cases k with
    | zero =>
      refine ⟨?_, b0, hb0, hinv.1⟩
      simp only [List.get_eq_getElem, List.getElem_cons_zero, Nat.add_zero, hout]
      exact Option.some_ne_none _
    | succ k =>
      have hk' : k < rest.length := by simp only [List.length_cons] at hk; omega
      obtain ⟨hf, b, hb, hle⟩ := ih (n + 1) lTS1 r hr k hk'
      have e : n + (k + 1) = n + 1 + k := by omega
      rw [e]
      exact ⟨hf, b, hb, by rw [← hinv.2.2.1]; exact hle⟩

/-- A successful call of the `REAL8` embedding went through every stage: what it
computed, what it was granted and what it returns. -/
theorem XLALSFTVectorToLFT_REAL8_ok_inv {α U : Type} [Zero α] (E : LAL α)
    (firstHead : SFTtype α U) (rest : List (SFTtype α U)) (out : SFTtype α U)
    (r : List Request) (sfts1 : List (SFTtype α U))
    (h : XLALSFTVectorToLFT_REAL8 E (some (firstHead :: rest)) = (.ok out, r, sfts1)) :
    ∃ (numTimeSamples : Nat) (lTS : List α) (f : Nat → α),
      firstHead.deltaF ≠ 0 ∧
      numTimeSamples_REAL8 firstHead.data.length firstHead.deltaF
          (E.XLALGPSGetREAL8 firstHead.epoch)
          (E.XLALGPSGetREAL8 ((firstHead :: rest).getLast (List.cons_ne_nil _ _)).epoch)
        = some numTimeSamples ∧
      firstHead.name.utf8ByteSize + 23 + 1 ≤ LALNameLength ∧
      (E.XLALCreateReverseCOMPLEX8FFTPlan firstHead.data.length = true ∧
        E.XLALCreateCOMPLEX8TimeSeries_lTS numTimeSamples = true ∧
        E.XLALCreateCOMPLEX8TimeSeries_sTS firstHead.data.length = true ∧
        E.LALCalloc = true ∧
        E.XLALCreateCOMPLEX8Vector numTimeSamples = true ∧
        E.XLALCreateForwardCOMPLEX8FFTPlan numTimeSamples = true) ∧
      XLALSFTVectorToLFT_loop_REAL8 E firstHead.data.length
          (E.XLALGPSGetREAL8 firstHead.epoch)
          (deltaT_REAL8 firstHead.data.length firstHead.deltaF) 0 (firstHead :: rest)
          (List.replicate numTimeSamples 0) = (.ok lTS, sfts1) ∧
      E.XLALCOMPLEX8VectorFFT_LFTplan lTS = some f ∧
      XLALReorderFFTWtoSFT E.XLALMalloc (some ((List.range numTimeSamples).map f))
        = (.ok (), some out.data) ∧
      out.data.length = numTimeSamples ∧ lTS.length = numTimeSamples ∧
      out.name = firstHead.name ++ ":long Fourier transform" ∧
      out.epoch = firstHead.epoch ∧ out.f0 = firstHead.f0 ∧
      out.sampleUnits = firstHead.sampleUnits ∧
      out.deltaF = REAL8 (1 / REAL8 ((numTimeSamples : ℚ)
        * deltaT_REAL8 firstHead.data.length firstHead.deltaF)) ∧
      r = [.ReverseCOMPLEX8FFTPlan firstHead.data.length, .COMPLEX8TimeSeries numTimeSamples,
        .COMPLEX8TimeSeries firstHead.data.length, .Calloc, .COMPLEX8Vector numTimeSamples,
        .ForwardCOMPLEX8FFTPlan numTimeSamples] := by
  unfold XLALSFTVectorToLFT_REAL8 at h
  simp only [] at h
  split at h
  · simp at h
  rename_i hF
  split at h
  · simp at h
  · rename_i N hN
    split at h
    · simp at h
    rename_i g1
    split at h
    · simp at h
    rename_i g2
    split at h
    · simp at h
    rename_i g3
    split at h
    · simp at h
    rename_i g4
    split at h
    · simp at h
    rename_i hname
    split at h
    · simp at h
    rename_i g5
    split at h
    · simp at h
    · simp at h
    · rename_i lTS sfts2 hl
      split at h
      · simp at h
      rename_i g6
      split at h
      · simp at h
      · rename_i f hf
        split at h
        · rename_i data hd
          simp only [Prod.mk.injEq, Result.ok.injEq] at h
          obtain ⟨ho, hr, hs⟩ := h
          subst hs
          have hlen := (XLALReorderFFTWtoSFT_ok_inv _ _ _ hd).2.2
          simp only [List.length_map, List.length_range] at hlen
          have hlTS : lTS.length = N := by
            have := XLALSFTVectorToLFT_loop_REAL8_length E _ _ _ _ 0
              (List.replicate N 0) lTS (by rw [hl])
            rw [this, List.length_replicate]
          simp at g1 g2 g3 g4 g5 g6
          refine ⟨N, lTS, f, hF, hN, by omega, ⟨g1, g2, g3, g4, g5, g6⟩, hl, hf, ?_, ?_,
            hlTS, ?_, ?_, ?_, ?_, ?_, ?_⟩
          · rw [← ho]; exact hd
          · rw [← ho]; exact hlen
          · rw [← ho]
          · rw [← ho]
          · rw [← ho]
          · rw [← ho]
          · rw [← ho]
          · rw [← hr]
            rfl
        · simp at h
        · simp at h

theorem REAL8_zero : REAL8 0 = 0 := by
  simp [REAL8]

theorem REAL8_half : REAL8 (1 / 2) = 1 / 2 := by
  decide!

/-- The first SFT is placed at index 0. -/
theorem bin0_n_REAL8_first {α U : Type} (E : LAL α) (deltaT : ℚ) (firstHead : SFTtype α U) :
    bin0_n_REAL8 E (E.XLALGPSGetREAL8 firstHead.epoch) deltaT firstHead = some 0 := by
  simp only [bin0_n_REAL8, sub_self, REAL8_zero, zero_div, zero_add, REAL8_half, toUINT4_half]

/-- C1 (amended): for every buffer `X` of length `N >= 1`, when the temporary
copy is allocated `XLALReorderFFTWtoSFT` returns success and leaves a buffer `Y`
of the same length with `Y[i] = X[NhalfPos + i]` for `i < NhalfNeg` and
`Y[NhalfNeg + j] = X[j]` for `j < NhalfPos`, where
`NhalfPos = floor(N/2 + 1/2) = ceil(N/2)` and `NhalfNeg = N - NhalfPos = floor(N/2)`;
when the allocation fails it returns `XLAL_ENOMEM` and leaves `X` as it was.
`[a0,a1,a2,a3]` becomes `[a2,a3,a0,a1]`, `[a0,a1,a2,a3,a4]` becomes
`[a3,a4,a0,a1,a2]`. -/
theorem C1_XLALReorderFFTWtoSFT_layout {α : Type} (m : Nat → Option (Nat → α)) (X : List α)
    (hN : 1 ≤ X.length) :
    (m X.length ≠ none →
      ∃ Y, XLALReorderFFTWtoSFT m (some X) = (.ok (), some Y) ∧ Y.length = X.length ∧
        (∀ i, i < NhalfNeg X.length → Y[i]? = X[NhalfPos X.length + i]?) ∧
        (∀ j, j < NhalfPos X.length → Y[NhalfNeg X.length + j]? = X[j]?)) ∧
    (m X.length = none → XLALReorderFFTWtoSFT m (some X) = (.error .XLAL_ENOMEM, some X)) ∧
    (NhalfPos X.length : ℤ) = ⌊(X.length : ℚ) / 2 + 1 / 2⌋ ∧
    (NhalfPos X.length : ℤ) = ⌈(X.length : ℚ) / 2⌉ ∧
    NhalfNeg X.length = X.length - NhalfPos X.length ∧
    (NhalfNeg X.length : ℤ) = ⌊(X.length : ℚ) / 2⌋ ∧
    NhalfPos X.length + NhalfNeg X.length = X.length ∧
    (∀ a0 a1 a2 a3 : α, m 4 ≠ none →
      XLALReorderFFTWtoSFT m (some [a0, a1, a2, a3]) = (.ok (), some [a2, a3, a0, a1])) ∧
    (∀ a0 a1 a2 a3 a4 : α, m 5 ≠ none →
      XLALReorderFFTWtoSFT m (some [a0, a1, a2, a3, a4])
        = (.ok (), some [a3, a4, a0, a1, a2])) := by
  have hX : X.length ≠ 0 := by omega
  have hP := NhalfPos_le X.length
  have hPN := NhalfPos_add_NhalfNeg X.length
  refine ⟨?_, XLALReorderFFTWtoSFT_nomem m X hX, ?_, NhalfPos_eq_ceil _, rfl,
    NhalfNeg_eq_floor _, hPN, ?_, ?_⟩
  · intro hm
    obtain ⟨block, hb⟩ := Option.ne_none_iff_exists'.mp hm
    refine ⟨_, XLALReorderFFTWtoSFT_ok m block X hX hb, ?_, ?_, ?_⟩
    · simp only [List.length_append, List.length_drop, List.length_take]
      omega
    · intro i hi
      rw [getElem_opt_drop_append_take X _ hP, if_pos (by omega)]
    · intro j hj
      rw [getElem_opt_drop_append_take X _ hP, if_neg (by omega), if_pos (by omega)]
      congr 1
      omega
  · unfold NhalfPos
    rw [Int.toNat_of_nonneg]
    apply Int.floor_nonneg.mpr
    positivity
  · intro a0 a1 a2 a3 hm
    obtain ⟨block, hb⟩ := Option.ne_none_iff_exists'.mp hm
    rw [XLALReorderFFTWtoSFT_ok m block [a0, a1, a2, a3] (by simp) hb]
    have : NhalfPos 4 = 2 := by rw [NhalfPos_eq]
    simp [this]
  · intro a0 a1 a2 a3 a4 hm
    obtain ⟨block, hb⟩ := Option.ne_none_iff_exists'.mp hm
    rw [XLALReorderFFTWtoSFT_ok m block [a0, a1, a2, a3, a4] (by simp) hb]
    have : NhalfPos 5 = 3 := by rw [NhalfPos_eq]
    simp [this]

/-- Witness for C1: the theorem applied to the buffer `[10, 20, 30]` with an
allocator that always delivers. -/
theorem C1_XLALReorderFFTWtoSFT_layout_witness :
    1 ≤ ([10, 20, 30] : List ℤ).length ∧
    ∃ Y, XLALReorderFFTWtoSFT (fun _ => some fun _ => (0 : ℤ)) (some [10, 20, 30])
        = (.ok (), some Y) ∧ Y.length = ([10, 20, 30] : List ℤ).length ∧
      (∀ i, i < NhalfNeg ([10, 20, 30] : List ℤ).length →
        Y[i]? = ([10, 20, 30] : List ℤ)[NhalfPos ([10, 20, 30] : List ℤ).length + i]?) ∧
      (∀ j, j < NhalfPos ([10, 20, 30] : List ℤ).length →
        Y[NhalfNeg ([10, 20, 30] : List ℤ).length + j]? = ([10, 20, 30] : List ℤ)[j]?) :=
  ⟨by decide,
    (C1_XLALReorderFFTWtoSFT_layout (fun _ => some fun _ => (0 : ℤ)) [10, 20, 30]
      (by decide)).1 (by simp)⟩

/-- Counterexample to C1 as stated: on the one-element buffer `[7]` the call does
not succeed when `XLALMalloc` returns NULL; it returns `XLAL_ENOMEM`. -/
theorem C1_counterexample :
    1 ≤ ([7] : List ℤ).length ∧
    XLALReorderFFTWtoSFT (fun _ => none) (some ([7] : List ℤ))
      = (.error .XLAL_ENOMEM, some [7]) ∧
    (XLALReorderFFTWtoSFT (fun _ => none) (some ([7] : List ℤ))).1 ≠ .ok () := by
  decide

/-- C2 (amended): for every `N >= 0` and every buffer `X` of length `N`, calling
`XLALReorderFFTWtoSFT` and then `XLALReorderSFTtoFFTW` on the buffer leaves it
equal to `X`, provided both temporary copies can be allocated (no allocation is
attempted for `N = 0`, where both calls fail with `XLAL_EINVAL`); for `N >= 1`
both calls then return success. -/
theorem C2_FFTWtoSFT_then_SFTtoFFTW {α : Type} (m1 m2 : Nat → Option (Nat → α)) (X : List α)
    (hm : X.length = 0 ∨ (m1 X.length ≠ none ∧ m2 X.length ≠ none)) :
    (XLALReorderSFTtoFFTW m2 (XLALReorderFFTWtoSFT m1 (some X)).2).2 = some X ∧
    (X.length = 0 →
      (XLALReorderFFTWtoSFT m1 (some X)).1 = .error .XLAL_EINVAL ∧
      (XLALReorderSFTtoFFTW m2 (XLALReorderFFTWtoSFT m1 (some X)).2).1
        = .error .XLAL_EINVAL) ∧
    (X.length ≠ 0 →
      (XLALReorderFFTWtoSFT m1 (some X)).1 = .ok () ∧
      (XLALReorderSFTtoFFTW m2 (XLALReorderFFTWtoSFT m1 (some X)).2).1 = .ok ()) := by
  by_cases hX : X.length = 0
  · have hnil : X = [] := List.length_eq_zero.mp hX
    subst hnil
    simp [XLALReorderFFTWtoSFT, XLALReorderSFTtoFFTW]
  · rcases hm with h0 | ⟨h1, h2⟩
    · exact absurd h0 hX
    · obtain ⟨b1, hb1⟩ := Option.ne_none_iff_exists'.mp h1
      have hAB := SFTtoFFTW_after_FFTWtoSFT m1 m2 X hX h1 h2
      refine ⟨?_, fun h => absurd h hX, fun _ => ⟨?_, ?_⟩⟩
      · rw [hAB]
      · rw [XLALReorderFFTWtoSFT_ok m1 b1 X hX hb1]
      · rw [hAB]

/-- Witness for C2: the theorem applied to `[1, 2, 3]` with allocators that
deliver. -/
theorem C2_FFTWtoSFT_then_SFTtoFFTW_witness :
    (XLALReorderSFTtoFFTW (fun _ => some fun _ => (0 : ℤ))
      (XLALReorderFFTWtoSFT (fun _ => some fun _ => (0 : ℤ)) (some [1, 2, 3])).2).2
      = some [1, 2, 3] :=
  (C2_FFTWtoSFT_then_SFTtoFFTW (fun _ => some fun _ => (0 : ℤ))
    (fun _ => some fun _ => (0 : ℤ)) [1, 2, 3] (Or.inr (by simp))).1

/-- Counterexample to C2 as stated: on `[1, 2]`, when the first call succeeds and
the allocation in the second call fails, the buffer is left as `[2, 1]`. -/
theorem C2_counterexample :
    (XLALReorderSFTtoFFTW (fun _ => none)
      (XLALReorderFFTWtoSFT (fun _ => some fun _ => (0 : ℤ)) (some [1, 2])).2).2
      = some [2, 1] ∧
    (XLALReorderSFTtoFFTW (fun _ => none)
      (XLALReorderFFTWtoSFT (fun _ => some fun _ => (0 : ℤ)) (some [1, 2])).2).2
      ≠ some [1, 2] := by
  decide!

/-- C3 (amended): for every buffer `X` of length `N >= 1`, provided the temporary
copies can be allocated, calling `XLALReorderSFTtoFFTW` and then
`XLALReorderFFTWtoSFT` returns success twice and leaves the buffer equal to `X`,
and so does the opposite order: the two reorderings are inverse to each other
on both sides. -/
theorem C3_SFTtoFFTW_then_FFTWtoSFT {α : Type} (m1 m2 : Nat → Option (Nat → α)) (X : List α)
    (hN : 1 ≤ X.length) (h1 : m1 X.length ≠ none) (h2 : m2 X.length ≠ none) :
    (XLALReorderSFTtoFFTW m1 (some X)).1 = .ok () ∧
    XLALReorderFFTWtoSFT m2 (XLALReorderSFTtoFFTW m1 (some X)).2 = (.ok (), some X) ∧
    (XLALReorderFFTWtoSFT m1 (some X)).1 = .ok () ∧
    XLALReorderSFTtoFFTW m2 (XLALReorderFFTWtoSFT m1 (some X)).2 = (.ok (), some X) := by
  have hX : X.length ≠ 0 := by omega
  obtain ⟨b1, hb1⟩ := Option.ne_none_iff_exists'.mp h1
  refine ⟨?_, FFTWtoSFT_after_SFTtoFFTW m1 m2 X hX h1 h2, ?_,
    SFTtoFFTW_after_FFTWtoSFT m1 m2 X hX h1 h2⟩
  · rw [XLALReorderSFTtoFFTW_ok m1 b1 X hX hb1]
  · rw [XLALReorderFFTWtoSFT_ok m1 b1 X hX hb1]

/-- Witness for C3: the theorem applied to `[1, 2, 3]` with allocators that
deliver. -/
theorem C3_SFTtoFFTW_then_FFTWtoSFT_witness :
    1 ≤ ([1, 2, 3] : List ℤ).length ∧
    XLALReorderFFTWtoSFT (fun _ => some fun _ => (0 : ℤ))
      (XLALReorderSFTtoFFTW (fun _ => some fun _ => (0 : ℤ)) (some [1, 2, 3])).2
      = (.ok (), some [1, 2, 3]) :=
  ⟨by decide,
    (C3_SFTtoFFTW_then_FFTWtoSFT (fun _ => some fun _ => (0 : ℤ))
      (fun _ => some fun _ => (0 : ℤ)) [1, 2, 3] (by decide) (by simp) (by simp)).2.1⟩

/-- Counterexample to C3 as stated: on `[1, 2, 3]`, when the first call succeeds
and the allocation in the second call fails, the buffer is left as `[2, 3, 1]`. -/
theorem C3_counterexample :
    1 ≤ ([1, 2, 3] : List ℤ).length ∧
    XLALReorderFFTWtoSFT (fun _ => none)
      (XLALReorderSFTtoFFTW (fun _ => some fun _ => (0 : ℤ)) (some [1, 2, 3])).2
      = (.error .XLAL_ENOMEM, some [2, 3, 1]) ∧
    (XLALReorderFFTWtoSFT (fun _ => none)
      (XLALReorderSFTtoFFTW (fun _ => some fun _ => (0 : ℤ)) (some [1, 2, 3])).2).2
      ≠ some [1, 2, 3] := by
  decide!

/-- C4: each of `XLALReorderFFTWtoSFT` and `XLALReorderSFTtoFFTW` fails with
`XLAL_EINVAL` if and only if the buffer is NULL or has length 0, and then leaves
the buffer unchanged; when the temporary copy can be allocated these are the
only failures. -/
theorem C4_reorder_EINVAL {α : Type} (m : Nat → Option (Nat → α)) (X : Option (List α)) :
    ((XLALReorderFFTWtoSFT m X).1 = .error .XLAL_EINVAL ↔ (X = none ∨ X = some [])) ∧
    ((XLALReorderSFTtoFFTW m X).1 = .error .XLAL_EINVAL ↔ (X = none ∨ X = some [])) ∧
    ((X = none ∨ X = some []) →
      (XLALReorderFFTWtoSFT m X).2 = X ∧ (XLALReorderSFTtoFFTW m X).2 = X) ∧
    ((∀ Y, X = some Y → m Y.length ≠ none) →
      ((XLALReorderFFTWtoSFT m X).1 ≠ .ok () ↔ (X = none ∨ X = some [])) ∧
      ((XLALReorderSFTtoFFTW m X).1 ≠ .ok () ↔ (X = none ∨ X = some []))) := by
  rcases X with _ | X
  · simp [XLALReorderFFTWtoSFT, XLALReorderSFTtoFFTW]
  · by_cases hX : X.length = 0
    · have hnil : X = [] := List.length_eq_zero.mp hX
      subst hnil
      simp [XLALReorderFFTWtoSFT, XLALReorderSFTtoFFTW]
    · have hne : X ≠ [] := fun h => hX (by rw [h]; rfl)
      cases hm : m X.length with
      | none =>
        rw [XLALReorderFFTWtoSFT_nomem m X hX hm, XLALReorderSFTtoFFTW_nomem m X hX hm]
        simp [hne, hm]
      | some block =>
        rw [XLALReorderFFTWtoSFT_ok m block X hX hm, XLALReorderSFTtoFFTW_ok m block X hX hm]
        simp [hne]

/-- Witness for C4: the theorem applied to the NULL pointer and to an empty
buffer. -/
theorem C4_reorder_EINVAL_witness :
    ((XLALReorderFFTWtoSFT (fun _ => some fun _ => (0 : ℤ)) none).2 = none ∧
      (XLALReorderSFTtoFFTW (fun _ => some fun _ => (0 : ℤ)) none).2 = none) ∧
    (XLALReorderFFTWtoSFT (fun _ => some fun _ => (0 : ℤ)) (some [])).1
      = .error .XLAL_EINVAL :=
  ⟨(C4_reorder_EINVAL (fun _ => some fun _ => (0 : ℤ)) none).2.2.1 (Or.inl rfl),
    (C4_reorder_EINVAL (fun _ => some fun _ => (0 : ℤ)) (some [])).1.mpr (Or.inr rfl)⟩

/-- C5: `XLALSFTVectorToLFT` called with a NULL SFT vector or with an SFT vector of
length 0 returns NULL with `XLAL_EINVAL`, and has requested no plan, buffer or
output by then. -/
theorem C5_XLALSFTVectorToLFT_empty_input {α U : Type} [Zero α] (E : LAL α) :
    XLALSFTVectorToLFT E (none : Option (List (SFTtype α U))) = (.error .XLAL_EINVAL, []) ∧
    XLALSFTVectorToLFT E (some ([] : List (SFTtype α U))) = (.error .XLAL_EINVAL, []) :=
  ⟨rfl, rfl⟩

/-- C11: for every non-empty SFT vector on which `XLALSFTVectorToLFT` succeeds, the
returned transform has the `epoch` (so its time is `startTime`), the `f0` and the
`sampleUnits` of the first segment, whatever the other segments carry. -/
theorem C11_metadata_of_first_segment {α U : Type} [Zero α] (E : LAL α)
    (firstHead : SFTtype α U) (rest : List (SFTtype α U)) (out : SFTtype α U)
    (r : List Request) (startTime : ℚ)
    (h : XLALSFTVectorToLFT E (some (firstHead :: rest)) = (.ok out, r))
    (hst : startTime = E.XLALGPSGetREAL8 firstHead.epoch) :
    out.epoch = firstHead.epoch ∧ E.XLALGPSGetREAL8 out.epoch = startTime ∧
    out.f0 = firstHead.f0 ∧ out.sampleUnits = firstHead.sampleUnits := by
  obtain ⟨_, _, _, _, _, _, _, _, _, _, _, he, hf, hu⟩ :=
    XLALSFTVectorToLFT_ok_data E firstHead rest out r h
  exact ⟨he, by rw [he, hst], hf, hu⟩

/-- Witness for C11: a run on two segments that differ in `epoch`, `f0` and
`deltaF`; the transform carries the values of the first. -/
theorem C11_metadata_of_first_segment_witness :
    XLALSFTVectorToLFT copyLAL
        (some [sampleSFT 0 [1, 2],
          { sampleSFT 2 [3, 4] with epoch := ⟨2, 500000000⟩, f0 := 7, deltaF := 3 }])
      = (.ok { name := "H1:long Fourier transform", epoch := ⟨0, 0⟩, f0 := 100,
               deltaF := 1 / 5, sampleUnits := (), data := [3, 4, 1, 2, 0] },
          [.ReverseCOMPLEX8FFTPlan 2, .COMPLEX8TimeSeries 5, .COMPLEX8TimeSeries 2, .Calloc,
            .COMPLEX8Vector 5, .ForwardCOMPLEX8FFTPlan 5]) ∧
    ((⟨0, 0⟩ : LIGOTimeGPS) = (sampleSFT 0 [1, 2]).epoch ∧
      copyLAL.XLALGPSGetREAL8 ⟨0, 0⟩ = 0 ∧ (100 : ℚ) = (sampleSFT 0 [1, 2]).f0 ∧
      () = (sampleSFT 0 [1, 2]).sampleUnits) :=
  have h : XLALSFTVectorToLFT copyLAL
        (some [sampleSFT 0 [1, 2],
          { sampleSFT 2 [3, 4] with epoch := ⟨2, 500000000⟩, f0 := 7, deltaF := 3 }])
      = (.ok { name := "H1:long Fourier transform", epoch := ⟨0, 0⟩, f0 := 100,
               deltaF := 1 / 5, sampleUnits := (), data := [3, 4, 1, 2, 0] },
          [.ReverseCOMPLEX8FFTPlan 2, .COMPLEX8TimeSeries 5, .COMPLEX8TimeSeries 2, .Calloc,
            .COMPLEX8Vector 5, .ForwardCOMPLEX8FFTPlan 5]) := by decide!
  ⟨h, C11_metadata_of_first_segment copyLAL (sampleSFT 0 [1, 2])
    [{ sampleSFT 2 [3, 4] with epoch := ⟨2, 500000000⟩, f0 := 7, deltaF := 3 }] _ _ 0 h
    (by decide!)⟩

/-- C19: for unsigned `a`, `b` with `b <= a` whose falling factorial
`a (a-1) ... (a-b+1)` is below `2^32`, `choose(a, b)` returns the binomial
coefficient `C(a, b) = a! / (b! (a-b)!)`; in particular `choose(a, 0) = 1` and
`choose(a, a) = 1` for `a <= 12`. -/
theorem C19_choose_is_binomial (a b : Nat) (ha : a < 4294967296)
    (hba : b ≤ a) (hff : a.descFactorial b < 4294967296) :
    choose a b = some (a.choose b) ∧
    a.choose b = a.factorial / (b.factorial * (a - b).factorial) ∧
    (∀ c : Nat, c ≤ 12 → choose c 0 = some 1 ∧ choose c c = some 1) := by
  refine ⟨choose_eq_binomial a b ha hba hff, Nat.choose_eq_factorial_div_factorial hba, ?_⟩
  intro c hc
  constructor
  · have := choose_eq_binomial c 0 (by omega) (Nat.zero_le c) (by simp)
    rwa [Nat.choose_zero_right] at this
  · have hfc : c.descFactorial c < 4294967296 := by
      rw [Nat.descFactorial_self]
      have h12 : c.factorial ≤ (12 : Nat).factorial := Nat.factorial_le hc
      have : (12 : Nat).factorial = 479001600 := by decide
      omega
    have := choose_eq_binomial c c (by omega) le_rfl hfc
    rwa [Nat.choose_self] at this

/-- Witness for C19: `choose(10, 3) = C(10, 3) = 120`. -/
theorem C19_choose_is_binomial_witness :
    choose 10 3 = some (Nat.choose 10 3) ∧ Nat.choose 10 3 = 120 :=
  ⟨(C19_choose_is_binomial 10 3 (by decide) (by decide) (by decide)).1,
    by decide⟩

/-- C20 (amended): `choose(a, b)` computes the combination function `C(a, b)` of
its arguments (for `b <= a` with the falling factorial below `2^32`), as the
comment at its definition says.  This is smaller than `C(a+1, b+1)` whenever
`b < a` and equal to it only for `b = a`; for the arguments `j + 1`, `i + 1` of the
call in `main` the value is `C(j+1, i+1)`. -/
theorem C20_choose_is_not_shifted (a b : Nat) (ha : a < 4294967296)
    (hba : b ≤ a) (hff : a.descFactorial b < 4294967296) :
    choose a b = some (a.choose b) ∧
    (b < a → a.choose b < (a + 1).choose (b + 1)) ∧
    (b = a → a.choose b = (a + 1).choose (b + 1)) ∧
    (∀ i j : Nat, j + 1 < 4294967296 → i ≤ j → (j + 1).descFactorial (i + 1) < 4294967296 →
      choose (j + 1) (i + 1) = some ((j + 1).choose (i + 1))) := by
  refine ⟨choose_eq_binomial a b ha hba hff, ?_, ?_, ?_⟩
  · intro hlt
    rw [Nat.choose_succ_succ' a b]
    have : 0 < a.choose (b + 1) := Nat.choose_pos (by omega)
    exact Nat.lt_add_of_pos_right this
  · intro heq
    subst heq
    simp
  · intro i j hj hij hf
    exact choose_eq_binomial (j + 1) (i + 1) hj (by omega) hf

/-- Witness for C20: `choose(2, 1) = C(2, 1) = 2`, below `C(3, 2) = 3`. -/
theorem C20_choose_is_not_shifted_witness :
    choose 2 1 = some (Nat.choose 2 1) ∧ Nat.choose 2 1 < Nat.choose (2 + 1) (1 + 1) :=
  have h := C20_choose_is_not_shifted 2 1 (by decide) (by decide) (by decide)
  ⟨h.1, h.2.1 (by decide)⟩

/-- Counterexample to C20 as stated: `choose(2, 1)` returns 2, while
`C(2+1, 1+1) = 3`. -/
theorem C20_counterexample :
    choose 2 1 = some 2 ∧ Nat.choose (2 + 1) (1 + 1) = 3 ∧
    choose 2 1 ≠ some (Nat.choose (2 + 1) (1 + 1)) := by
  decide

/-- C17 (amended): when the temporary copy is allocated, `XLALReorderFFTWtoSFT`
produces the layout of its doc comment (the first `N/2 + 1` input elements last,
`input[0]` at index `(N-1)/2`, integer division) for every odd `N`; for every
even `N >= 2` it moves only the first `N/2` elements to the end, so that
`input[0]` lands at index `N/2` and not at `(N-1)/2`, where the layout of the doc
comment has it. -/
theorem C17_docComment_layout {α : Type} (m : Nat → Option (Nat → α)) (X : List α)
    (hN : 1 ≤ X.length) (hm : m X.length ≠ none) :
    (X.length % 2 = 1 →
      XLALReorderFFTWtoSFT m (some X) = (.ok (), some (docComment_FFTWtoSFT X)) ∧
      (docComment_FFTWtoSFT X)[(X.length - 1) / 2]? = X[0]?) ∧
    (X.length % 2 = 0 →
      XLALReorderFFTWtoSFT m (some X)
        = (.ok (), some (X.drop (X.length / 2) ++ X.take (X.length / 2))) ∧
      (X.drop (X.length / 2) ++ X.take (X.length / 2))[X.length / 2]? = X[0]? ∧
      (docComment_FFTWtoSFT X)[(X.length - 1) / 2]? = X[0]? ∧
      (X.length - 1) / 2 ≠ X.length / 2) := by
  have hX : X.length ≠ 0 := by omega
  obtain ⟨block, hb⟩ := Option.ne_none_iff_exists'.mp hm
  have hcode := XLALReorderFFTWtoSFT_ok m block X hX hb
  rw [NhalfPos_eq] at hcode
  have hdoc : (docComment_FFTWtoSFT X)[(X.length - 1) / 2]? = X[0]? := by
    unfold docComment_FFTWtoSFT
    rw [getElem_opt_drop_append_take X _ (by omega), if_neg (by omega), if_pos (by omega)]
    congr 1
    omega
  constructor
  · intro hodd
    have : (X.length + 1) / 2 = X.length / 2 + 1 := by omega
    rw [this] at hcode
    exact ⟨hcode, hdoc⟩
  · intro heven
    have : (X.length + 1) / 2 = X.length / 2 := by omega
    rw [this] at hcode
    refine ⟨hcode, ?_, hdoc, by omega⟩
    rw [getElem_opt_drop_append_take X _ (by omega), if_neg (by omega), if_pos (by omega)]
    congr 1
    omega

/-- Witness for C17: on the odd length 3 the code returns the layout of the doc
comment, `[30, 10, 20]`, with `input[0] = 10` at index `(3-1)/2 = 1`. -/
theorem C17_docComment_layout_witness :
    XLALReorderFFTWtoSFT (fun _ => some fun _ => (0 : ℤ)) (some [10, 20, 30])
      = (.ok (), some (docComment_FFTWtoSFT [10, 20, 30])) ∧
    docComment_FFTWtoSFT ([10, 20, 30] : List ℤ) = [30, 10, 20] :=
  ⟨((C17_docComment_layout (fun _ => some fun _ => (0 : ℤ)) [10, 20, 30] (by decide)
      (by simp)).1 (by decide)).1, by decide⟩

/-- Counterexample to C17 as stated: on `[10, 20, 30, 40]` the code returns
`[30, 40, 10, 20]` with `input[0] = 10` at index 2, while the doc comment
describes `[40, 10, 20, 30]` with `input[0]` at index `(4-1)/2 = 1`. -/
theorem C17_counterexample :
    XLALReorderFFTWtoSFT (fun _ => some fun _ => (0 : ℤ)) (some [10, 20, 30, 40])
      = (.ok (), some [30, 40, 10, 20]) ∧
    docComment_FFTWtoSFT ([10, 20, 30, 40] : List ℤ) = [40, 10, 20, 30] ∧
    ([30, 40, 10, 20] : List ℤ)[(4 - 1) / 2]? ≠ ([10, 20, 30, 40] : List ℤ)[0]? ∧
    ([30, 40, 10, 20] : List ℤ) ≠ docComment_FFTWtoSFT ([10, 20, 30, 40] : List ℤ) := by
  decide!

/-- C18: the demodulation loop of `main` is a pure reindexing and rescaling.  For an
input SFT of `N0` bins written into an output SFT of `N1 = N0` bins the loops run
without leaving either vector and the output equals `demodulate_spec`: bin `k`
is `1/N1` times the bin that `XLALReorderSFTtoFFTW` puts at `k`, that is
`out[j] = in[NhalfNeg + j] / N1` for `j < NhalfPos` and
`out[NhalfPos + i] = in[i] / N1` for `i < NhalfNeg`, the same factor for every
bin.  The indices written are `0, 1, ..., N1 - 1` in this order: each output bin
is written exactly once and no index exceeds `N1 - 1`. -/
theorem C18_demodulation_is_scaled_reorder {K : Type} [Field K] (N0 N1 : Nat)
    (inputSFT : List K) (hlen : inputSFT.length = N0) (hN : N1 = N0) :
    ∃ st, main_demodulate N0 N1 inputSFT = some st ∧
      st.SSBsftData = demodulate_spec N1 inputSFT ∧
      st.SSBsftData.length = N1 ∧
      (∀ j : Nat, j < NhalfPos N0 →
        st.SSBsftData[j]? = (inputSFT[NhalfNeg N0 + j]?).map fun x => x / (N1 : K)) ∧
      (∀ i : Nat, i < NhalfNeg N0 →
        st.SSBsftData[NhalfPos N0 + i]? = (inputSFT[i]?).map fun x => x / (N1 : K)) ∧
      st.written = List.range N1 ∧
      (∀ k : Nat, k < N1 → st.written.count k = 1) ∧
      (∀ k : Nat, k ∈ st.written → k + 1 ≤ N1) := by
  subst hN
  have hP := NhalfPos_le N1
  have hPN := NhalfPos_add_NhalfNeg N1
  obtain ⟨st, hrun, hl, _, hw, hget⟩ := main_demodulate_spec N1 inputSFT hlen
  have hdiv : (fun x : K => 1 / (N1 : K) * x) = fun x => x / (N1 : K) := by
    funext x
    rw [one_div_mul_eq_div]
  refine ⟨st, hrun, ?_, hl, ?_, ?_, hw, ?_, ?_⟩
  · apply List.ext_getElem?
    intro i
    rw [hget i]
    unfold demodulate_spec
    by_cases h0 : inputSFT.length = 0
    · have hnil : inputSFT = [] := List.length_eq_zero.mp h0
      subst hnil
      simp [XLALReorderSFTtoFFTW]
    · rw [XLALReorderSFTtoFFTW_ok _ (fun _ => 0) inputSFT h0 rfl, hlen]
      simp only [List.getElem?_map]
  · intro j hj
    rw [hget j, getElem_opt_drop_append_take inputSFT _ (by omega), hlen, if_pos (by omega),
      hdiv]
  · intro i hi
    rw [hget (NhalfPos N1 + i), getElem_opt_drop_append_take inputSFT _ (by omega), hlen,
      if_neg (by omega), if_pos (by omega), hdiv]
    congr 2
    omega
  · intro k hk
    rw [hw]
    exact List.count_eq_one_of_mem (List.nodup_range N1) (List.mem_range.mpr hk)
  · intro k hk
    rw [hw] at hk
    exact List.mem_range.mp hk

/-- Witness for C18: an SFT of 5 bins; the output is the reordered input divided
by 5, written at the indices 0 to 4 in order. -/
theorem C18_demodulation_is_scaled_reorder_witness :
    ∃ st, main_demodulate 5 5 ([1, 2, 3, 4, 5] : List ℚ) = some st ∧
      st.SSBsftData = demodulate_spec 5 ([1, 2, 3, 4, 5] : List ℚ) ∧
      demodulate_spec 5 ([1, 2, 3, 4, 5] : List ℚ) = [3 / 5, 4 / 5, 1, 1 / 5, 2 / 5] ∧
      st.written = List.range 5 :=
  have h := C18_demodulation_is_scaled_reorder 5 5 ([1, 2, 3, 4, 5] : List ℚ) rfl rfl
  h.elim fun st hs => ⟨st, hs.1, hs.2.1, by decide!, hs.2.2.2.2.2.1⟩

/-- C15 (amended): for an input SFT `x` of `N = numBins >= 1` bins, let `z` be
its data in native ordering (what `XLALReorderSFTtoFFTW` makes of `x`).  The demodulation
loop of `main` hands `XLALSFTVectorToLFT` the segment data `z / N`, and with an
exact inverse transform (kernel `w`, a primitive `N`-th root of unity) the short
time series `sTS` of the loop of `XLALSFTVectorToLFT` has `N` samples and is the
inverse discrete Fourier transform of the data scaled by `1/N`:
`sTS[k] = (1/N) * sum_j z[j] w^(j k)`.  The forward transform of `sTS` gives `z`
back.  The factor `1/N` is the one applied in `main`: the transform in
`XLALSFTVectorToLFT` itself is unnormalised (its forward transform returns `N`
times the data it was given), and `sTS` is what the loop copies into the long
buffer. -/
theorem C15_short_time_series {K U : Type} [Field K] (w : K) (x z : List K) (N : Nat)
    (hlen : x.length = N) (hN : 1 ≤ N) (hw : IsPrimitiveRoot w N)
    (hz : z = x.drop (NhalfNeg N) ++ x.take (NhalfNeg N)) :
    (∀ (m : Nat → Option (Nat → K)), m N ≠ none →
      XLALReorderSFTtoFFTW m (some x) = (.ok (), some z)) ∧
    ∃ st, main_demodulate N N x = some st ∧
      st.SSBsftData = z.map (fun v => 1 / (N : K) * v) ∧
      ∀ (E : LAL K) (thisSFT : SFTtype K U) (n : Nat) (sTS : List K),
        thisSFT.data = st.SSBsftData →
        E.XLALCOMPLEX8VectorFFT_SFTplan n thisSFT.data = some (dft w thisSFT.data) →
        sTS = (List.range N).map (dft w thisSFT.data) →
        sTS.length = N ∧
        (∀ k : Nat, k < N → sTS[k]? = some (1 / (N : K) * dft w z k)) ∧
        (List.range N).map (dft w⁻¹ sTS) = z ∧
        (List.range N).map (dft w⁻¹ sTS) = thisSFT.data.map (fun v => (N : K) * v) ∧
        (∀ (startTime deltaT : ℚ) (lTS lTS1 : List K),
          XLALSFTVectorToLFT_loop E N startTime deltaT n [thisSFT] lTS = .ok lTS1 →
          ∃ b, bin0_n E startTime deltaT thisSFT = some b ∧
            memcpy lTS b sTS 0 N = some lTS1) := by
  have hNK : (N : K) ≠ 0 := natCast_ne_zero_of_primitiveRoot w N hN hw
  have hP := NhalfPos_le N
  have hPN := NhalfPos_add_NhalfNeg N
  have hzl : z.length = N := by
    rw [hz]
    simp only [List.length_append, List.length_drop, List.length_take]
    omega
  constructor
  · intro m hm
    obtain ⟨block, hb⟩ := Option.ne_none_iff_exists'.mp hm
    rw [XLALReorderSFTtoFFTW_ok m block x (by omega) (by rw [hlen]; exact hb), hlen, hz]
  obtain ⟨st, hrun, hl, _, _, hget⟩ := main_demodulate_spec N x hlen
  have hdata : st.SSBsftData = z.map (fun v => 1 / (N : K) * v) := by
    apply List.ext_getElem?
    intro i
    rw [hget i, hz, List.getElem?_map]
  refine ⟨st, hrun, hdata, ?_⟩
  intro E thisSFT n sTS hd hr hs
  have hyl : thisSFT.data.length = N := by rw [hd, hl]
  have hfw : (List.range N).map (dft w⁻¹ sTS)
      = thisSFT.data.map (fun v => (N : K) * v) := by
    have := map_dft_inv_dft w thisSFT.data (by rw [hyl]; exact hw)
    rw [hyl] at this
    rw [hs]
    exact this
  refine ⟨by rw [hs]; simp, ?_, ?_, hfw, ?_⟩
  · intro k hk
    rw [hs, List.getElem?_map, List.getElem?_range hk, hd, hdata]
    simp only [Option.map_some', dft_map_mul]
  · rw [hfw, hd, hdata, List.map_map]
    have : ((fun v => (N : K) * v) ∘ fun v => 1 / (N : K) * v) = id := by
      funext v
      simp only [Function.comp_apply, id_eq]
      field_simp
    rw [this, List.map_id]
  · intro startTime deltaT lTS lTS1 hloop
    obtain ⟨out, b, lTS2, hout, hb, hcp, hrest⟩ :=
      XLALSFTVectorToLFT_loop_cons_inv E N startTime deltaT n thisSFT [] lTS lTS1 hloop
    rw [hr] at hout
    have ho : out = dft w thisSFT.data := (Option.some.inj hout).symm
    simp only [XLALSFTVectorToLFT_loop, Result.ok.injEq] at hrest
    subst ho hrest
    exact ⟨b, hb, by rw [hs]; exact hcp⟩

/-- Witness for C15: the input SFT `[3, 5]` over the rationals with `w = -1`: in
native ordering `z = [5, 3]`, `main` produces `[5/2, 3/2]`, the short time series
is `[4, 1]` and its forward transform is `[5, 3]`. -/
theorem C15_short_time_series_witness :
    ∃ st, main_demodulate 2 2 ([3, 5] : List ℚ) = some st ∧
      st.SSBsftData = ([5, 3] : List ℚ).map (fun v => 1 / ((2 : ℕ) : ℚ) * v) ∧
      (List.range 2).map (dft (-1 : ℚ) [5 / 2, 3 / 2]) = [4, 1] ∧
      (List.range 2).map (dft (-1 : ℚ)⁻¹ [4, 1]) = [5, 3] :=
  have h := (C15_short_time_series (U := Unit) (-1 : ℚ) [3, 5] [5, 3] 2 rfl (by decide)
    (IsPrimitiveRoot.neg_one 0 (by norm_num)) (by decide!)).2
  h.elim fun st hs => ⟨st, hs.1, hs.2.1, by decide!, by decide!⟩

/-- Counterexample to C15 as stated (rationals, `w = -1`, two bins).  For the
segment `[3, 5]` handed to `XLALSFTVectorToLFT` the short time series, copied by
the loop into the long buffer, is `[8, -2]`, not the inverse transform scaled by
`1/2`, `[4, -1]`, and its forward transform is `[6, 10]`, not `[3, 5]`.  For the
input SFT `[3, 5]` of `main` the short time series is `[4, 1]` and its forward
transform is `[5, 3]`, the data in native ordering, not `[3, 5]`. -/
theorem C15_counterexample :
    XLALSFTVectorToLFT_loop (dftLAL (-1 : ℚ)) 2 0 1 0
        [({ name := "H1", epoch := ⟨0, 0⟩, f0 := 100, deltaF := 1 / 2,
            sampleUnits := (), data := [3, 5] } : SFTtype ℚ Unit)] (List.replicate 2 0)
      = .ok [8, -2] ∧
    ((List.range 2).map (dft (-1 : ℚ) [3, 5])).map (fun v => 1 / 2 * v) = [4, -1] ∧
    (List.range 2).map (dft (-1 : ℚ)⁻¹ [8, -2]) = [6, 10] ∧
    (main_demodulate 2 2 ([3, 5] : List ℚ)).map (fun st => st.SSBsftData)
      = some [5 / 2, 3 / 2] ∧
    (List.range 2).map (dft (-1 : ℚ) [5 / 2, 3 / 2]) = [4, 1] ∧
    (List.range 2).map (dft (-1 : ℚ)⁻¹ [4, 1]) = [5, 3] := by
  decide!

/-- C21: for every `INT8` input `t` whose truncated quotient `t / 10^9` is an
`INT4`, `I8ToLIGOTimeGPS` stores that quotient in `gpsSeconds` and a
`gpsNanoSeconds` with `10^9 * gpsSeconds + gpsNanoSeconds = t` (the value `main`
recombines when it writes the output epoch), `|gpsNanoSeconds| < 10^9`, and
`0 <= gpsNanoSeconds < 10^9` whenever `t >= 0`. -/
theorem C21_I8ToLIGOTimeGPS_same_instant (t : Int)
    (hlo : -2147483648 ≤ Int.tdiv t 1000000000) (hhi : Int.tdiv t 1000000000 < 2147483648) :
    main_epoch (I8ToLIGOTimeGPS t) = t ∧
    1000000000 * (I8ToLIGOTimeGPS t).gpsSeconds + (I8ToLIGOTimeGPS t).gpsNanoSeconds = t ∧
    (I8ToLIGOTimeGPS t).gpsSeconds = Int.tdiv t 1000000000 ∧
    |(I8ToLIGOTimeGPS t).gpsNanoSeconds| < 1000000000 ∧
    (0 ≤ t → 0 ≤ (I8ToLIGOTimeGPS t).gpsNanoSeconds ∧
      (I8ToLIGOTimeGPS t).gpsNanoSeconds < 1000000000) := by
  have hb := tmod_bounds t 1000000000 (by norm_num)
  rw [I8ToLIGOTimeGPS_eq t hlo hhi]
  refine ⟨?_, ?_, rfl, ?_, fun h => ⟨hb.2.2 h, hb.2.1⟩⟩
  · exact Int.tdiv_add_tmod t 1000000000
  · exact Int.tdiv_add_tmod t 1000000000
  · simp only []
    rw [abs_lt]
    exact ⟨hb.1, hb.2.1⟩

/-- Witness for C21: `-1500000000` ns becomes `(-1 s, -500000000 ns)` and
`2500000001` ns becomes `(2 s, 500000001 ns)`; both recombine to the input. -/
theorem C21_I8ToLIGOTimeGPS_same_instant_witness :
    main_epoch (I8ToLIGOTimeGPS (-1500000000)) = -1500000000 ∧
    I8ToLIGOTimeGPS (-1500000000) = ⟨-1, -500000000⟩ ∧
    main_epoch (I8ToLIGOTimeGPS 2500000001) = 2500000001 ∧
    I8ToLIGOTimeGPS 2500000001 = ⟨2, 500000001⟩ :=
  ⟨(C21_I8ToLIGOTimeGPS_same_instant (-1500000000) (by decide) (by decide)).1, by decide,
    (C21_I8ToLIGOTimeGPS_same_instant 2500000001 (by decide) (by decide)).1, by decide⟩

/-- C24: for an even length the two reordering functions return the same result
on every buffer (whatever the allocation does); when the temporary copy is
allocated that result is the swap of the two halves, which either function
undoes when applied again.  In general, with the copy allocated,
`XLALReorderFFTWtoSFT` is the cyclic shift by `ceil(N/2)` and
`XLALReorderSFTtoFFTW` the cyclic shift by `floor(N/2)`; for an odd `N >= 3`
they differ (output index 0 takes input index `(N+1)/2`, respectively
`(N-1)/2`, so the results differ on every buffer without repeated samples),
and for `N = 1` both leave the buffer as it is. -/
theorem C24_reorder_permutations {α : Type} (m : Nat → Option (Nat → α)) (X : List α) :
    (X.length % 2 = 0 → XLALReorderFFTWtoSFT m (some X) = XLALReorderSFTtoFFTW m (some X)) ∧
    (1 ≤ X.length → m X.length ≠ none →
      XLALReorderFFTWtoSFT m (some X) = (.ok (), some (X.rotate ((X.length + 1) / 2))) ∧
      XLALReorderSFTtoFFTW m (some X) = (.ok (), some (X.rotate (X.length / 2))) ∧
      (X.length % 2 = 0 →
        X.rotate ((X.length + 1) / 2) = X.drop (X.length / 2) ++ X.take (X.length / 2) ∧
        X.rotate (X.length / 2) = X.drop (X.length / 2) ++ X.take (X.length / 2) ∧
        XLALReorderFFTWtoSFT m (XLALReorderFFTWtoSFT m (some X)).2 = (.ok (), some X) ∧
        XLALReorderSFTtoFFTW m (XLALReorderSFTtoFFTW m (some X)).2 = (.ok (), some X)) ∧
      (X.length % 2 = 1 → 3 ≤ X.length →
        (X.rotate ((X.length + 1) / 2))[0]? = X[(X.length + 1) / 2]? ∧
        (X.rotate (X.length / 2))[0]? = X[(X.length - 1) / 2]? ∧
        (X.Nodup → XLALReorderFFTWtoSFT m (some X) ≠ XLALReorderSFTtoFFTW m (some X))) ∧
      (X.length = 1 →
        XLALReorderFFTWtoSFT m (some X) = (.ok (), some X) ∧
        XLALReorderSFTtoFFTW m (some X) = (.ok (), some X))) := by
  have hPe := NhalfPos_eq X.length
  have hNe := NhalfNeg_eq X.length
  have hFS : ∀ X : List α, X.length % 2 = 0 →
      XLALReorderFFTWtoSFT m (some X) = XLALReorderSFTtoFFTW m (some X) := by
    intro X hev
    have hPe := NhalfPos_eq X.length
    have hNe := NhalfNeg_eq X.length
    by_cases hX : X.length = 0
    · have hnil : X = [] := List.length_eq_zero.mp hX
      subst hnil
      simp [XLALReorderFFTWtoSFT, XLALReorderSFTtoFFTW]
    · cases hm : m X.length with
      | none => rw [XLALReorderFFTWtoSFT_nomem m X hX hm, XLALReorderSFTtoFFTW_nomem m X hX hm]
      | some block =>
        rw [XLALReorderFFTWtoSFT_ok m block X hX hm, XLALReorderSFTtoFFTW_ok m block X hX hm]
        have : NhalfPos X.length = NhalfNeg X.length := by omega
        rw [this]
  refine ⟨hFS X, ?_⟩
  intro hX1 hmne
  have hX : X.length ≠ 0 := by omega
  obtain ⟨block, hm⟩ := Option.ne_none_iff_exists'.mp hmne
  have hF : XLALReorderFFTWtoSFT m (some X)
      = (.ok (), some (X.rotate ((X.length + 1) / 2))) := by
    rw [XLALReorderFFTWtoSFT_ok m block X hX hm, hPe,
      List.rotate_eq_drop_append_take (by omega)]
  have hS : XLALReorderSFTtoFFTW m (some X) = (.ok (), some (X.rotate (X.length / 2))) := by
    rw [XLALReorderSFTtoFFTW_ok m block X hX hm, hNe,
      List.rotate_eq_drop_append_take (by omega)]
  refine ⟨hF, hS, ?_, ?_, ?_⟩
  · intro hev
    have e : (X.length + 1) / 2 = X.length / 2 := by omega
    refine ⟨?_, ?_, ?_, ?_⟩
    · rw [e, List.rotate_eq_drop_append_take (by omega)]
    · rw [List.rotate_eq_drop_append_take (by omega)]
    · have := SFTtoFFTW_after_FFTWtoSFT m m X hX hmne hmne
      rw [hF] at this ⊢
      rw [hFS _ (by rw [List.length_rotate]; exact hev)]
      exact this
    · have := FFTWtoSFT_after_SFTtoFFTW m m X hX hmne hmne
      rw [hS] at this ⊢
      rw [← hFS _ (by rw [List.length_rotate]; exact hev)]
      exact this
  · intro hodd h3
    have g1 : (X.rotate ((X.length + 1) / 2))[0]? = X[(X.length + 1) / 2]? := by
      rw [List.rotate_eq_drop_append_take (by omega),
        getElem_opt_drop_append_take X _ (by omega) 0, if_pos (by omega)]
      rfl
    have g2 : (X.rotate (X.length / 2))[0]? = X[(X.length - 1) / 2]? := by
      rw [List.rotate_eq_drop_append_take (by omega),
        getElem_opt_drop_append_take X _ (by omega) 0, if_pos (by omega)]
      congr 1
      omega
    refine ⟨g1, g2, ?_⟩
    intro hnd heq
    rw [hF, hS] at heq
    simp only [Prod.mk.injEq, Option.some.injEq, true_and] at heq
    have h0 := g1
    rw [heq, g2] at h0
    have hlt1 : (X.length - 1) / 2 < X.length := by omega
    have hlt2 : (X.length + 1) / 2 < X.length := by omega
    rw [List.getElem?_eq_getElem hlt1, List.getElem?_eq_getElem hlt2] at h0
    simp only [Option.some.injEq] at h0
    have := (hnd.getElem_inj_iff).mp h0
    omega
  · intro h1
    have hl : ∃ a, X = [a] := List.length_eq_one.mp h1
    obtain ⟨a, rfl⟩ := hl
    rw [hF, hS]
    simp

/-- Witness for C24: on `[10, 20, 30, 40]` both functions return the same result;
on `[10, 20, 30]` they differ, `[30, 10, 20]` against `[20, 30, 10]`. -/
theorem C24_reorder_permutations_witness :
    XLALReorderFFTWtoSFT (fun _ => some fun _ => (0 : ℤ)) (some [10, 20, 30, 40])
      = XLALReorderSFTtoFFTW (fun _ => some fun _ => (0 : ℤ)) (some [10, 20, 30, 40]) ∧
    XLALReorderFFTWtoSFT (fun _ => some fun _ => (0 : ℤ)) (some [10, 20, 30])
      ≠ XLALReorderSFTtoFFTW (fun _ => some fun _ => (0 : ℤ)) (some [10, 20, 30]) ∧
    XLALReorderFFTWtoSFT (fun _ => some fun _ => (0 : ℤ)) (some [10, 20, 30])
      = (.ok (), some [30, 10, 20]) ∧
    XLALReorderSFTtoFFTW (fun _ => some fun _ => (0 : ℤ)) (some [10, 20, 30])
      = (.ok (), some [20, 30, 10]) :=
  ⟨(C24_reorder_permutations (fun _ => some fun _ => (0 : ℤ)) [10, 20, 30, 40]).1 (by decide),
    (((C24_reorder_permutations (fun _ => some fun _ => (0 : ℤ)) [10, 20, 30]).2 (by decide)
      (by simp)).2.2.2.1 (by decide) (by decide)).2.2 (by decide),
    by decide!, by decide!⟩

/-- C25 (the code at the claim): for `UINT4` arguments the loop of `choose` ends
after exactly `b` executions of its body, and the denominator it leaves is
`b!` reduced modulo `2^32`.  That value is non-zero for every `b <= 33`, where
`numer/denom` is computed, and zero for every `b >= 34`, where the final
`numer/denom` divides by zero whatever `a` is. -/
theorem C25_choose_denominator (a b : Nat) (hb : b < 4294967296) :
    (∃ numer denom,
      choose_loop a b (b + 1) ((b + 1) % 4294967296) 1 1 0 = some (numer, denom, b) ∧
      denom = b.factorial % 4294967296 ∧
      choose a b = if denom = 0 then none else some (numer / denom)) ∧
    (b ≤ 33 → b.factorial % 4294967296 ≠ 0 ∧ choose a b ≠ none) ∧
    (34 ≤ b → b.factorial % 4294967296 = 0 ∧ choose a b = none) := by
  have hidx : ((b + 1) % 4294967296 + 4294967296 - 1) % 4294967296 = b := by omega
  have hden : (choose_while a b b 1 1).2 = b.factorial % 4294967296 := by
    rw [choose_while_denom a b b 1 1 (by norm_num), Nat.one_mul]
  have hch : choose a b = if (choose_while a b b 1 1).2 = 0 then none
      else some ((choose_while a b b 1 1).1 / (choose_while a b b 1 1).2) := by
    simp only [choose, hidx]
  have hf := factorial_mod_two_pow_32 b
  refine ⟨⟨(choose_while a b b 1 1).1, (choose_while a b b 1 1).2, ?_, hden, hch⟩, ?_, ?_⟩
  · rw [choose_loop_eq a b b (b + 1) _ 1 1 0 hb hidx (by omega), Nat.zero_add]
  · intro h
    refine ⟨hf.1 h, ?_⟩
    rw [hch, hden, if_neg (hf.1 h)]
    exact Option.some_ne_none _
  · intro h
    refine ⟨hf.2 h, ?_⟩
    rw [hch, hden, if_pos (hf.2 h)]

/-- Witness for C25: `choose(35, 34)`, the call of `main` for `j = 34`, `i = 33`,
leaves the denominator `34! mod 2^32 = 0` after 34 iterations and divides by
zero; `choose(34, 33)` does not. -/
theorem C25_choose_denominator_witness :
    choose 35 34 = none ∧ Nat.factorial 34 % 4294967296 = 0 ∧
    choose 34 33 ≠ none ∧ Nat.factorial 33 % 4294967296 ≠ 0 :=
  have h := (C25_choose_denominator 35 34 (by decide)).2.2 (by decide)
  have g := (C25_choose_denominator 34 33 (by decide)).2.1 (by decide)
  ⟨h.2, h.1, g.2, g.1⟩

/-- C26 (the code at the claim): in the parsing loop of `main`, entered with
`arg < argc`, an iteration on a word that begins with `-` either returns
`SIMULATETAYLORCWTESTC_EARG` or advances `arg` by 2, 4 or 5, and the loop ends
when every word from `arg` on begins with `-`.  An iteration on a word that does
not begin with `-` (an empty word included) matches no branch, leaves `arg` as
it is and returns nothing: from there the loop never ends. -/
theorem C26_parse_loop (atoi : String → Int) (atof : String → ℚ) (argv : List String)
    (st : ParseState) (h : st.arg < argv.length) :
    ((argv.getD st.arg "").data.head? = some '-' →
      main_parseBody atoi atof argv st = .returned SIMULATETAYLORCWTESTC_EARG ∨
      ∃ st1, main_parseBody atoi atof argv st = .next st1 ∧
        (st1.arg = st.arg + 2 ∨ st1.arg = st.arg + 4 ∨ st1.arg = st.arg + 5)) ∧
    ((∀ i, st.arg ≤ i → i < argv.length → (argv.getD i "").data.head? = some '-') →
      ∃ r, main_parseLoop atoi atof argv (argv.length - st.arg + 1) st = some r) ∧
    ((argv.getD st.arg "").data.head? ≠ some '-' →
      main_parseBody atoi atof argv st = .next st ∧
      ∀ fuel : Nat, main_parseLoop atoi atof argv fuel st = none) := by
  refine ⟨?_, ?_, ?_⟩
  · intro hd
    rcases main_parseBody_cases atoi atof argv st with hr | hn | ⟨hw, _⟩
    · exact Or.inl hr
    · exact Or.inr hn
    · exact absurd hd hw
  · intro hdash
    exact main_parseLoop_terminates atoi atof argv _ st (by omega) (by omega) hdash
  · intro hw
    have hs := main_parseBody_stall atoi atof argv st hw
    exact ⟨hs, main_parseLoop_stall atoi atof argv st h hs⟩

/-- Witness for C26: for the argument vector `SimulateTaylorCWTest foo` the first
iteration leaves `arg = 1 < argc = 2` and the loop has not ended after a million
evaluations of its condition; for `SimulateTaylorCWTest -s` it returns 2 in the
first iteration. -/
theorem C26_parse_loop_witness :
    main_parseBody (fun _ => 0) (fun _ => 0) ["SimulateTaylorCWTest", "foo"] main_parseInit
      = .next main_parseInit ∧
    main_parseLoop (fun _ => 0) (fun _ => 0) ["SimulateTaylorCWTest", "foo"] 1000000
      main_parseInit = none ∧
    main_parseLoop (fun _ => 0) (fun _ => 0) ["SimulateTaylorCWTest", "-s"] 2
      main_parseInit = some (.returned 2) :=
  have h := (C26_parse_loop (fun _ => 0) (fun _ => 0) ["SimulateTaylorCWTest", "foo"]
    main_parseInit (by decide)).2.2 (by decide)
  ⟨h.1, h.2 1000000, by decide⟩

/-- C7: when `XLALSFTVectorToLFT` returns a transform, its data is the reordered
forward transform of the long time series that the loop leaves after starting
from `numTimeSamples` zeros (the `memset`), and in that series every index that
lies in no placement range `[bin0_n, bin0_n + numBins)` holds zero.  For two
segments with `bin0_1 = numBins + k` the first is placed at 0, both ranges lie
inside the series, the `k` indices `numBins .. numBins + k - 1` hold zero, and
up to the end of the second range these are exactly the indices outside both
ranges.  (`numBins`, `deltaT`, `startTime` and every `bin0_n` are the `REAL8`
values the function computes.) -/
theorem C7_gaps_hold_zero {α U : Type} [Zero α] (E : LAL α) (firstHead : SFTtype α U)
    (rest : List (SFTtype α U)) (out : SFTtype α U) (r : List Request)
    (sfts1 : List (SFTtype α U)) (numBins : Nat) (startTime deltaT : ℚ)
    (h : XLALSFTVectorToLFT_REAL8 E (some (firstHead :: rest)) = (.ok out, r, sfts1))
    (hnb : numBins = firstHead.data.length)
    (hdT : deltaT = deltaT_REAL8 numBins firstHead.deltaF)
    (hst : startTime = E.XLALGPSGetREAL8 firstHead.epoch) :
    ∃ (lTS : List α) (f : Nat → α),
      (XLALSFTVectorToLFT_loop_REAL8 E numBins startTime deltaT 0 (firstHead :: rest)
        (List.replicate out.data.length 0)).1 = .ok lTS ∧
      lTS.length = out.data.length ∧
      E.XLALCOMPLEX8VectorFFT_LFTplan lTS = some f ∧
      XLALReorderFFTWtoSFT E.XLALMalloc (some ((List.range out.data.length).map f))
        = (.ok (), some out.data) ∧
      (∀ i, i < lTS.length →
        (∀ (n : Nat) (hn : n < (firstHead :: rest).length) (b : Nat),
          bin0_n_REAL8 E startTime deltaT ((firstHead :: rest).get ⟨n, hn⟩) = some b →
          ¬ (b ≤ i ∧ i < b + numBins)) →
        lTS[i]? = some 0) ∧
      (∀ (s1 : SFTtype α U) (k : Nat), rest = [s1] →
        bin0_n_REAL8 E startTime deltaT s1 = some (numBins + k) →
        bin0_n_REAL8 E startTime deltaT firstHead = some 0 ∧
        numBins + k + numBins ≤ lTS.length ∧
        (∀ i, numBins ≤ i → i < numBins + k → lTS[i]? = some 0) ∧
        (∀ i, i < numBins + k + numBins →
          ((∀ (n : Nat) (hn : n < (firstHead :: rest).length) (b : Nat),
            bin0_n_REAL8 E startTime deltaT ((firstHead :: rest).get ⟨n, hn⟩) = some b →
            ¬ (b ≤ i ∧ i < b + numBins)) ↔ (numBins ≤ i ∧ i < numBins + k)))) := by
  obtain ⟨N, lTS, f, _, _, _, _, hl, hf, hd, hlen, hlTS, _⟩ :=
    XLALSFTVectorToLFT_REAL8_ok_inv E firstHead rest out r sfts1 h
  subst hnb hdT hst
  rw [← hlen] at hl hd hlTS
  have hloop : (XLALSFTVectorToLFT_loop_REAL8 E firstHead.data.length
      (E.XLALGPSGetREAL8 firstHead.epoch)
      (deltaT_REAL8 firstHead.data.length firstHead.deltaF) 0 (firstHead :: rest)
      (List.replicate out.data.length 0)).1 = .ok lTS := by rw [hl]
  have hzero : ∀ i, i < lTS.length →
      (∀ (n : Nat) (hn : n < (firstHead :: rest).length) (b : Nat),
        bin0_n_REAL8 E (E.XLALGPSGetREAL8 firstHead.epoch)
          (deltaT_REAL8 firstHead.data.length firstHead.deltaF)
          ((firstHead :: rest).get ⟨n, hn⟩) = some b →
        ¬ (b ≤ i ∧ i < b + firstHead.data.length)) →
      lTS[i]? = some 0 := by
    intro i hi hun
    rw [XLALSFTVectorToLFT_loop_REAL8_untouched E _ _ _ _ i 0 _ lTS hloop hun,
      List.getElem?_replicate, if_pos (by rw [← hlTS]; exact hi)]
  refine ⟨lTS, f, hloop, hlTS, hf, hd, hzero, ?_⟩
  intro s1 k hrest hb1
  subst hrest
  have hb0 := bin0_n_REAL8_first E (deltaT_REAL8 firstHead.data.length firstHead.deltaF)
    firstHead
  have hin : firstHead.data.length + k + firstHead.data.length ≤ lTS.length := by
    obtain ⟨_, b, hb, hle⟩ := XLALSFTVectorToLFT_loop_REAL8_in_range E _ _ _ _ 0 _ lTS hloop
      1 (by simp)
    have hb' : bin0_n_REAL8 E (E.XLALGPSGetREAL8 firstHead.epoch)
        (deltaT_REAL8 firstHead.data.length firstHead.deltaF) s1 = some b := hb
    rw [hb1] at hb'
    have := Option.some.inj hb'
    rw [List.length_replicate] at hle
    omega
  have hcov : ∀ i, (∀ (n : Nat) (hn : n < [firstHead, s1].length) (b : Nat),
        bin0_n_REAL8 E (E.XLALGPSGetREAL8 firstHead.epoch)
          (deltaT_REAL8 firstHead.data.length firstHead.deltaF)
          ([firstHead, s1].get ⟨n, hn⟩) = some b →
        ¬ (b ≤ i ∧ i < b + firstHead.data.length)) ↔
      (¬ i < firstHead.data.length ∧ ¬ (firstHead.data.length + k ≤ i ∧
          i < firstHead.data.length + k + firstHead.data.length)) := by
    intro i
    constructor
    · intro h
      have h0 := h 0 (by simp) 0 hb0
      have h1 := h 1 (by simp) (firstHead.data.length + k) hb1
      exact ⟨by omega, h1⟩
    · intro h n hn b hb
      cases n with
      | zero =>
        have : bin0_n_REAL8 E (E.XLALGPSGetREAL8 firstHead.epoch)
          (deltaT_REAL8 firstHead.data.length firstHead.deltaF) firstHead = some b := hb
        rw [hb0] at this
        have hb' := Option.some.inj this
        omega
      | succ n =>
        cases n with
        | zero =>
          have : bin0_n_REAL8 E (E.XLALGPSGetREAL8 firstHead.epoch)
            (deltaT_REAL8 firstHead.data.length firstHead.deltaF) s1 = some b := hb
          rw [hb1] at this
          have hb' := Option.some.inj this
          rw [← hb']
          exact h.2
        | succ n =>
          simp only [List.length_cons, List.length_nil] at hn
          omega
  refine ⟨hb0, hin, ?_, ?_⟩
  · intro i h1 h2
    exact hzero i (by omega) ((hcov i).mpr ⟨by omega, by omega⟩)
  · intro i hi
    rw [hcov i]
    omega

/-- Witness for C7: two segments of two bins at GPS seconds 0 and 5 with
`deltaF = 1/2` (`deltaT = 1`), the transforms of `copyLAL_REAL8` copying their
input.  The function returns the reordering of the long time series
`[1, 2, 0, 0, 0, 3, 4]`, whose indices 2, 3 and 4 hold zero. -/
theorem C7_gaps_hold_zero_witness :
    XLALSFTVectorToLFT_REAL8 copyLAL_REAL8 (some [sampleSFT 0 [1, 2], sampleSFT 5 [3, 4]])
      = (.ok { name := "H1:long Fourier transform", epoch := ⟨0, 0⟩, f0 := 100,
               deltaF := REAL8 (1 / 7), sampleUnits := (),
               data := [0, 3, 4, 1, 2, 0, 0] },
          [.ReverseCOMPLEX8FFTPlan 2, .COMPLEX8TimeSeries 7, .COMPLEX8TimeSeries 2, .Calloc,
            .COMPLEX8Vector 7, .ForwardCOMPLEX8FFTPlan 7],
          [sampleSFT 0 [1, 2], sampleSFT 5 [3, 4]]) ∧
    ∃ lTS : List ℤ,
      (XLALSFTVectorToLFT_loop_REAL8 copyLAL_REAL8 2 0 1 0
        [sampleSFT 0 [1, 2], sampleSFT 5 [3, 4]] (List.replicate 7 0)).1 = .ok lTS ∧
      lTS = [1, 2, 0, 0, 0, 3, 4] ∧
      ∀ i, 2 ≤ i → i < 2 + 3 → lTS[i]? = some 0 :=
  have h : XLALSFTVectorToLFT_REAL8 copyLAL_REAL8
        (some [sampleSFT 0 [1, 2], sampleSFT 5 [3, 4]])
      = (.ok { name := "H1:long Fourier transform", epoch := ⟨0, 0⟩, f0 := 100,
               deltaF := REAL8 (1 / 7), sampleUnits := (),
               data := [0, 3, 4, 1, 2, 0, 0] },
          [.ReverseCOMPLEX8FFTPlan 2, .COMPLEX8TimeSeries 7, .COMPLEX8TimeSeries 2, .Calloc,
            .COMPLEX8Vector 7, .ForwardCOMPLEX8FFTPlan 7],
          [sampleSFT 0 [1, 2], sampleSFT 5 [3, 4]]) := by decide!
  ⟨h, (C7_gaps_hold_zero copyLAL_REAL8 (sampleSFT 0 [1, 2]) [sampleSFT 5 [3, 4]] _ _ _
      2 0 1 h rfl (by decide!) (by decide!)).elim fun lTS h1 => h1.elim fun _ h2 =>
    have e : (XLALSFTVectorToLFT_loop_REAL8 copyLAL_REAL8 2 0 1 0
        [sampleSFT 0 [1, 2], sampleSFT 5 [3, 4]] (List.replicate 7 0)).1
        = .ok [1, 2, 0, 0, 0, 3, 4] := by decide!
    ⟨lTS, h2.1, Result.ok.inj (Eq.trans (Eq.symm h2.1) e),
      (h2.2.2.2.2.2 (sampleSFT 5 [3, 4]) 3 rfl (by decide!)).2.2.1⟩⟩

/-- C8 (amended): in the long time series left by the loop of `XLALSFTVectorToLFT`
(run on `numTimeSamples` zeros, for any `numBins`, `startTime` and `deltaT`, so
for those the function passes), an index `i` covered by a placement range holds
sample `i - bin0_m` of the inverse transform of segment `m`, where `m` is the
largest segment index with `bin0_m <= i < bin0_m + numBins`: a later segment
overwrites an earlier one.  Every `bin0_n` lies inside the series and is the
truncation of the `REAL8` sum `x_n + 0.5`, where `x_n` is the `REAL8` quotient
`(startTime_n - startTime) / deltaT`; it equals `round (x_n)` (ties upward)
whenever that sum is exact and `x_n >= -1/2`. -/
theorem C8_later_segment_wins {α U : Type} [Zero α] (E : LAL α) (numBins : Nat)
    (startTime deltaT : ℚ) (sfts : List (SFTtype α U)) (numTimeSamples : Nat)
    (lTS : List α)
    (hloop : (XLALSFTVectorToLFT_loop_REAL8 E numBins startTime deltaT 0 sfts
      (List.replicate numTimeSamples 0)).1 = .ok lTS) :
    (∀ (i m : Nat) (hm : m < sfts.length) (b : Nat),
      bin0_n_REAL8 E startTime deltaT (sfts.get ⟨m, hm⟩) = some b → b ≤ i →
      i < b + numBins →
      (∀ (k : Nat) (hk : k < sfts.length) (b' : Nat), m < k →
        bin0_n_REAL8 E startTime deltaT (sfts.get ⟨k, hk⟩) = some b' →
        ¬ (b' ≤ i ∧ i < b' + numBins)) →
      ∃ out, E.XLALCOMPLEX8VectorFFT_SFTplan m (sfts.get ⟨m, hm⟩).data = some out ∧
        lTS[i]? = some (out (i - b))) ∧
    (∀ (n : Nat) (hn : n < sfts.length),
      ∃ b, bin0_n_REAL8 E startTime deltaT (sfts.get ⟨n, hn⟩) = some b ∧
        b + numBins ≤ numTimeSamples ∧
        b = Int.toNat ⌊REAL8 (REAL8 (REAL8
          (E.XLALGPSGetREAL8 (sfts.get ⟨n, hn⟩).epoch - startTime) / deltaT) + 1 / 2)⌋ ∧
        (REAL8 (REAL8 (REAL8
            (E.XLALGPSGetREAL8 (sfts.get ⟨n, hn⟩).epoch - startTime) / deltaT) + 1 / 2)
          = REAL8 (REAL8
            (E.XLALGPSGetREAL8 (sfts.get ⟨n, hn⟩).epoch - startTime) / deltaT) + 1 / 2 →
          -(1 / 2) ≤ REAL8 (REAL8
            (E.XLALGPSGetREAL8 (sfts.get ⟨n, hn⟩).epoch - startTime) / deltaT) →
          (b : ℤ) = round (REAL8 (REAL8
            (E.XLALGPSGetREAL8 (sfts.get ⟨n, hn⟩).epoch - startTime) / deltaT)))) := by
  constructor
  · intro i m hm b hb hbi hib hlater
    have := XLALSFTVectorToLFT_loop_REAL8_last_wins E numBins startTime deltaT sfts i 0 _ lTS
      hloop m hm b hb hbi hib hlater
    rwa [zero_add] at this
  · intro n hn
    obtain ⟨_, b, hb, hle⟩ :=
      XLALSFTVectorToLFT_loop_REAL8_in_range E numBins startTime deltaT sfts 0 _ lTS hloop n hn
    rw [List.length_replicate] at hle
    have hb2 : toUINT4 (REAL8 (REAL8 (REAL8
        (E.XLALGPSGetREAL8 (sfts.get ⟨n, hn⟩).epoch - startTime) / deltaT) + 1 / 2))
        = some b := hb
    refine ⟨b, hb, hle, (toUINT4_inv _ _ hb2).2.2, ?_⟩
    intro hex hx
    rw [hex] at hb2
    exact toUINT4_eq_round _ b hb2 hx

/-- Witness for C8: three segments of two bins placed at 0, 1 and 2; index 1 lies
in the ranges of the first two and holds sample 0 of the second. -/
theorem C8_later_segment_wins_witness :
    (XLALSFTVectorToLFT_loop_REAL8 copyLAL_REAL8 2 0 1 0
        [sampleSFT 0 [1, 2], sampleSFT 1 [5, 6], sampleSFT 2 [3, 4]] (List.replicate 4 0)).1
      = .ok [1, 5, 3, 4] ∧
    ∃ out, copyLAL_REAL8.XLALCOMPLEX8VectorFFT_SFTplan 1 (sampleSFT 1 [5, 6]).data = some out ∧
      ([1, 5, 3, 4] : List ℤ)[1]? = some (out (1 - 1)) :=
  have hloop : (XLALSFTVectorToLFT_loop_REAL8 copyLAL_REAL8 2 0 1 0
      [sampleSFT 0 [1, 2], sampleSFT 1 [5, 6], sampleSFT 2 [3, 4]] (List.replicate 4 0)).1
      = .ok [1, 5, 3, 4] := by decide!
  ⟨hloop,
    (C8_later_segment_wins copyLAL_REAL8 2 0 1
      [sampleSFT 0 [1, 2], sampleSFT 1 [5, 6], sampleSFT 2 [3, 4]] 4 [1, 5, 3, 4] hloop).1
      1 1 (by decide) 1 (by decide!) (by decide) (by decide) (by
        intro k hk b' hmk hb'
        have hk2 : k = 2 := by
          simp only [List.length_cons, List.length_nil] at hk
          omega
        subst hk2
        have h2 : bin0_n_REAL8 copyLAL_REAL8 0 1 (sampleSFT 2 [3, 4]) = some 2 := by decide!
        have hb2 : b' = 2 := by
          have h3 : bin0_n_REAL8 copyLAL_REAL8 0 1 (sampleSFT 2 [3, 4]) = some b' := hb'
          rw [h2] at h3
          exact (Option.some.inj h3).symm
        omega)⟩

/-- Counterexample to C8 as stated.  Two segments of two bins with
`deltaF = 0.04545454545454545` (the `REAL8` below `1/22`) at GPS 0 s and 5.5 s:
the `REAL8` quotient is `x_1 = 0.49999999999999994`, the sum `x_1 + 0.5` rounds to
1, and the second segment is placed at index 1 (the series becomes `[1, 3, 4]`),
while `round (x_1) = 0`, also for the exact quotient.  Two segments of three
bins with `deltaF = 7.75` at GPS 0 s and 2 s: the second is placed at 46, while
the exact quotient is `46.5` and rounds to 47. -/
theorem C8_counterexample :
    bin0_n_REAL8 copyLAL_REAL8 0 (deltaT_REAL8 2 (6550690367084357 / 144115188075855872))
      { sampleSFT 5 [3, 4] with
        epoch := ⟨5, 500000000⟩, deltaF := 6550690367084357 / 144115188075855872 }
      = some 1 ∧
    REAL8 (REAL8 (11 / 2 - 0) / deltaT_REAL8 2 (6550690367084357 / 144115188075855872))
      = 9007199254740991 / 18014398509481984 ∧
    round (9007199254740991 / 18014398509481984 : ℚ) = 0 ∧
    round ((11 / 2 - 0 : ℚ) / (1 / (2 * (6550690367084357 / 144115188075855872)))) = 0 ∧
    (XLALSFTVectorToLFT_loop_REAL8 copyLAL_REAL8 2 0
      (deltaT_REAL8 2 (6550690367084357 / 144115188075855872)) 0
      [{ sampleSFT 0 [1, 2] with deltaF := 6550690367084357 / 144115188075855872 },
        { sampleSFT 5 [3, 4] with
          epoch := ⟨5, 500000000⟩, deltaF := 6550690367084357 / 144115188075855872 }]
      (List.replicate 3 0)).1 = .ok [1, 3, 4] ∧
    bin0_n_REAL8 copyLAL_REAL8 0 (deltaT_REAL8 3 (31 / 4))
      { sampleSFT 2 [4, 5, 6] with deltaF := 31 / 4 } = some 46 ∧
    round ((2 - 0 : ℚ) / (1 / (3 * (31 / 4)))) = 47 := by
  decide!

/-- C9 (amended): when `XLALSFTVectorToLFT` returns a transform for a non-empty
SFT vector, its data and the long time series it is computed from have
`numTimeSamples` samples, the truncation of `Tspan / deltaT + 0.5` with
`Tsft = 1 / deltaF`, `deltaT = 1 / (numBins * deltaF)` and
`Tspan = (epoch of the last segment + Tsft) - epoch of the first segment` taken
from the first segment and every operation rounded to `REAL8`.  When none of
these operations rounds, this is `round (Tspan / deltaT)` of exact arithmetic,
ties rounded up. -/
theorem C9_numTimeSamples {α U : Type} [Zero α] (E : LAL α) (firstHead : SFTtype α U)
    (rest : List (SFTtype α U)) (out : SFTtype α U) (r : List Request)
    (sfts1 : List (SFTtype α U)) (numBins : Nat) (deltaF startTime startTime_last : ℚ)
    (h : XLALSFTVectorToLFT_REAL8 E (some (firstHead :: rest)) = (.ok out, r, sfts1))
    (hnb : numBins = firstHead.data.length)
    (hdF : deltaF = firstHead.deltaF)
    (hst : startTime = E.XLALGPSGetREAL8 firstHead.epoch)
    (hlast : startTime_last = E.XLALGPSGetREAL8
      ((firstHead :: rest).getLast (List.cons_ne_nil _ _)).epoch) :
    numTimeSamples_REAL8 numBins deltaF startTime startTime_last = some out.data.length ∧
    toUINT4 (REAL8 (REAL8 (REAL8 (REAL8 (startTime_last + REAL8 (1 / deltaF)) - startTime)
      / REAL8 (1 / REAL8 ((numBins : ℚ) * deltaF))) + 1 / 2)) = some out.data.length ∧
    1 ≤ out.data.length ∧
    (∃ (lTS : List α) (f : Nat → α),
      (XLALSFTVectorToLFT_loop_REAL8 E numBins startTime (deltaT_REAL8 numBins deltaF) 0
        (firstHead :: rest) (List.replicate out.data.length 0)).1 = .ok lTS ∧
      lTS.length = out.data.length ∧
      E.XLALCOMPLEX8VectorFFT_LFTplan lTS = some f ∧
      XLALReorderFFTWtoSFT E.XLALMalloc (some ((List.range out.data.length).map f))
        = (.ok (), some out.data)) ∧
    (REAL8 (1 / deltaF) = 1 / deltaF →
      REAL8 ((numBins : ℚ) * deltaF) = (numBins : ℚ) * deltaF →
      REAL8 (1 / ((numBins : ℚ) * deltaF)) = 1 / ((numBins : ℚ) * deltaF) →
      REAL8 (startTime_last + 1 / deltaF) = startTime_last + 1 / deltaF →
      REAL8 (startTime_last + 1 / deltaF - startTime)
        = startTime_last + 1 / deltaF - startTime →
      REAL8 ((startTime_last + 1 / deltaF - startTime) / (1 / ((numBins : ℚ) * deltaF)))
        = (startTime_last + 1 / deltaF - startTime) / (1 / ((numBins : ℚ) * deltaF)) →
      REAL8 ((startTime_last + 1 / deltaF - startTime) / (1 / ((numBins : ℚ) * deltaF))
          + 1 / 2)
        = (startTime_last + 1 / deltaF - startTime) / (1 / ((numBins : ℚ) * deltaF))
          + 1 / 2 →
      (out.data.length : ℤ)
        = round ((startTime_last + 1 / deltaF - startTime)
            / (1 / ((numBins : ℚ) * deltaF)))) := by
  obtain ⟨N, lTS, f, _, hN, _, _, hl, hf, hd, hlen, hlTS, _⟩ :=
    XLALSFTVectorToLFT_REAL8_ok_inv E firstHead rest out r sfts1 h
  obtain ⟨hne, _, _⟩ := XLALReorderFFTWtoSFT_ok_inv _ _ _ hd
  simp only [List.length_map, List.length_range] at hne
  subst hnb hdF hst hlast
  rw [← hlen] at hN hl hd hlTS hne
  have hN2 : toUINT4 (REAL8 (REAL8 (REAL8 (REAL8 (E.XLALGPSGetREAL8
      ((firstHead :: rest).getLast (List.cons_ne_nil _ _)).epoch
      + REAL8 (1 / firstHead.deltaF)) - E.XLALGPSGetREAL8 firstHead.epoch)
      / REAL8 (1 / REAL8 ((firstHead.data.length : ℚ) * firstHead.deltaF))) + 1 / 2))
      = some out.data.length := hN
  refine ⟨hN, hN2, by omega, ⟨lTS, f, by rw [hl], hlTS, hf, hd⟩, ?_⟩
  intro e1 e2 e3 e4 e5 e6 e7
  rw [e1, e2, e3, e4, e5, e6, e7] at hN2
  obtain ⟨_, _, hb⟩ := toUINT4_inv _ _ hN2
  rw [round_eq]
  omega

/-- Witness for C9: segments of two bins with `deltaF = 1/2` (`deltaT = 1`) at GPS
times 0 and 2.5; no operation rounds, `Tspan / deltaT = 4.5` and the transform
has 5 samples. -/
theorem C9_numTimeSamples_witness :
    XLALSFTVectorToLFT_REAL8 copyLAL_REAL8
        (some [sampleSFT 0 [1, 2], { sampleSFT 2 [3, 4] with epoch := ⟨2, 500000000⟩ }])
      = (.ok { name := "H1:long Fourier transform", epoch := ⟨0, 0⟩, f0 := 100,
               deltaF := REAL8 (1 / 5), sampleUnits := (), data := [3, 4, 1, 2, 0] },
          [.ReverseCOMPLEX8FFTPlan 2, .COMPLEX8TimeSeries 5, .COMPLEX8TimeSeries 2, .Calloc,
            .COMPLEX8Vector 5, .ForwardCOMPLEX8FFTPlan 5],
          [sampleSFT 0 [1, 2], { sampleSFT 2 [3, 4] with epoch := ⟨2, 500000000⟩ }]) ∧
    numTimeSamples_REAL8 2 (1 / 2) 0 (5 / 2) = some 5 ∧
    ((([3, 4, 1, 2, 0] : List ℤ).length : ℕ) : ℤ)
      = round (((5 / 2 : ℚ) + 1 / (1 / 2) - 0) / (1 / (((2 : ℕ) : ℚ) * (1 / 2)))) :=
  have h : XLALSFTVectorToLFT_REAL8 copyLAL_REAL8
        (some [sampleSFT 0 [1, 2], { sampleSFT 2 [3, 4] with epoch := ⟨2, 500000000⟩ }])
      = (.ok { name := "H1:long Fourier transform", epoch := ⟨0, 0⟩, f0 := 100,
               deltaF := REAL8 (1 / 5), sampleUnits := (), data := [3, 4, 1, 2, 0] },
          [.ReverseCOMPLEX8FFTPlan 2, .COMPLEX8TimeSeries 5, .COMPLEX8TimeSeries 2, .Calloc,
            .COMPLEX8Vector 5, .ForwardCOMPLEX8FFTPlan 5],
          [sampleSFT 0 [1, 2], { sampleSFT 2 [3, 4] with epoch := ⟨2, 500000000⟩ }]) := by
    decide!
  have c := C9_numTimeSamples copyLAL_REAL8 (sampleSFT 0 [1, 2])
    [{ sampleSFT 2 [3, 4] with epoch := ⟨2, 500000000⟩ }] _ _ _ 2 (1 / 2) 0 (5 / 2) h rfl rfl
    (by decide!) (by decide!)
  ⟨h, c.1, c.2.2.2.2 (by decide!) (by decide!) (by decide!) (by decide!) (by decide!)
    (by decide!) (by decide!)⟩

/-- Counterexample to C9 as stated: two segments of three bins with `deltaF = 15.5`
at GPS 0 s and 1 s.  In exact arithmetic `Tspan / deltaT = 49.5`, which rounds to
50; the `REAL8` quotient is `49.499999999999993`, the function computes 49
samples and returns a transform of 49 samples. -/
theorem C9_counterexample :
    (match (XLALSFTVectorToLFT_REAL8 copyLAL_REAL8
        (some [{ sampleSFT 0 [1, 2, 3] with deltaF := 31 / 2 },
          { sampleSFT 1 [4, 5, 6] with deltaF := 31 / 2 }])).1 with
      | .ok out => some out.data.length
      | _ => none) = some 49 ∧
    numTimeSamples_REAL8 3 (31 / 2) 0 1 = some 49 ∧
    ((1 : ℚ) + 1 / (31 / 2) - 0) / (1 / (((3 : ℕ) : ℚ) * (31 / 2))) = 99 / 2 ∧
    round (((1 : ℚ) + 1 / (31 / 2) - 0) / (1 / (((3 : ℕ) : ℚ) * (31 / 2)))) = 50 ∧
    REAL8 (REAL8 (REAL8 (1 + REAL8 (1 / (31 / 2))) - 0) / deltaT_REAL8 3 (31 / 2))
      = 6966505673588735 / 140737488355328 := by
  decide!

/-- C12 (the code at the claim): for a single segment the function sizes the long
time series from `Tspan = (startTime + Tsft) - startTime` in `REAL8`, which is
not `Tsft` when `startTime` is large.  For GPS 1000000000 s, `deltaF = 100` and
`10^6` bins it computes 999999 samples.  For GPS 1000000000 s, `deltaF = 6000000`
and the two bins `[3, 5]` (exact transforms with kernel `-1`) it computes 1
sample, the segment is placed at 0, and the copy of 2 samples into the series
of 1 sample is outside the series: the call leaves the defined behaviour of C
instead of returning the reordering of `2 * [3, 5]`. -/
theorem C12_single_segment_out_of_range :
    numTimeSamples_REAL8 1000000 100 1000000000 1000000000 = some 999999 ∧
    (dftLAL (-1 : ℚ)).XLALGPSGetREAL8 ⟨1000000000, 0⟩ = 1000000000 ∧
    REAL8 (1000000000 : ℚ) = 1000000000 ∧
    numTimeSamples_REAL8 2 6000000 1000000000 1000000000 = some 1 ∧
    bin0_n_REAL8 (dftLAL (-1 : ℚ)) 1000000000 (deltaT_REAL8 2 6000000)
      ({ name := "H1", epoch := ⟨1000000000, 0⟩, f0 := 100, deltaF := 6000000,
         sampleUnits := (), data := [3, 5] } : SFTtype ℚ Unit) = some 0 ∧
    memcpy ([0] : List ℚ) 0 [8, -2] 0 2 = none ∧
    XLALSFTVectorToLFT_REAL8 (dftLAL (-1 : ℚ))
        (some [({ name := "H1", epoch := ⟨1000000000, 0⟩, f0 := 100, deltaF := 6000000,
                  sampleUnits := (), data := [3, 5] } : SFTtype ℚ Unit)])
      = (.undefined,
          [.ReverseCOMPLEX8FFTPlan 2, .COMPLEX8TimeSeries 1, .COMPLEX8TimeSeries 2, .Calloc,
            .COMPLEX8Vector 1],
          [{ name := "H1", epoch := ⟨1000000000, 0⟩, f0 := 100, deltaF := 6000000,
             sampleUnits := (), data := [3, 5] }]) := by
  decide!

/-- C22 (the code at the claim): two segments of two bins with `deltaF = 1.25` at
GPS 0 s and 3 s (ascending epochs, `Tsft = 0.8`).  In exact arithmetic
`Tspan / deltaT = 9.5` and the second segment is placed at `round (7.5) = 8` in a
series of 10 samples.  In `REAL8` the quotient `Tspan / deltaT` is
`9.4999999999999982`, the function computes 9 samples, places the second
segment at 8, and the copy of its 2 samples is outside the series: the call
leaves the defined behaviour of C. -/
theorem C22_placement_out_of_range :
    copyLAL_REAL8.XLALGPSGetREAL8 ⟨0, 0⟩ = 0 ∧ copyLAL_REAL8.XLALGPSGetREAL8 ⟨3, 0⟩ = 3 ∧
    toUINT4 (((3 : ℚ) + 1 / (5 / 4) - 0) / (1 / (((2 : ℕ) : ℚ) * (5 / 4))) + 1 / 2) = some 10 ∧
    toUINT4 (((3 : ℚ) - 0) / (1 / (((2 : ℕ) : ℚ) * (5 / 4))) + 1 / 2) = some 8 ∧
    REAL8 (REAL8 (REAL8 (3 + REAL8 (1 / (5 / 4))) - 0) / deltaT_REAL8 2 (5 / 4))
      = 5348024557502463 / 562949953421312 ∧
    numTimeSamples_REAL8 2 (5 / 4) 0 3 = some 9 ∧
    bin0_n_REAL8 copyLAL_REAL8 0 (deltaT_REAL8 2 (5 / 4))
      { sampleSFT 0 [1, 2] with deltaF := 5 / 4 } = some 0 ∧
    bin0_n_REAL8 copyLAL_REAL8 0 (deltaT_REAL8 2 (5 / 4))
      { sampleSFT 3 [3, 4] with deltaF := 5 / 4 } = some 8 ∧
    memcpy ([1, 2, 0, 0, 0, 0, 0, 0, 0] : List ℤ) 8 [3, 4] 0 2 = none ∧
    XLALSFTVectorToLFT_REAL8 copyLAL_REAL8
        (some [{ sampleSFT 0 [1, 2] with deltaF := 5 / 4 },
          { sampleSFT 3 [3, 4] with deltaF := 5 / 4 }])
      = (.undefined,
          [.ReverseCOMPLEX8FFTPlan 2, .COMPLEX8TimeSeries 9, .COMPLEX8TimeSeries 2, .Calloc,
            .COMPLEX8Vector 9],
          [{ sampleSFT 0 [1, 2] with deltaF := 5 / 4 },
            { sampleSFT 3 [3, 4] with deltaF := 5 / 4 }]) := by
  decide!

/-- C23 (the code at the claim): two gap-free segments of four bins with
`deltaF = 6250000` (`Tsft = 160 ns`) at GPS 1000000000 s and 160 ns later.  In
exact arithmetic `bin0_1 = 4` and the series has 8 samples.  In `REAL8` the
second epoch is `1000000000 + 2^-23`, the function computes 6 samples, places
the second segment at 3, and the copy of its 4 samples is outside the series:
the call leaves the defined behaviour of C.  With `deltaF = 100`, `10^6` bins and
the second segment 10 ms after GPS 1000000000 s it computes 1999998 samples and
places the second segment at 999999. -/
theorem C23_gap_free_out_of_range :
    (1 : ℚ) / 6250000 = 160 / 1000000000 ∧
    copyLAL_REAL8.XLALGPSGetREAL8 ⟨1000000000, 0⟩ = 1000000000 ∧
    copyLAL_REAL8.XLALGPSGetREAL8 ⟨1000000000, 160⟩ = 1000000000 + 1 / 8388608 ∧
    numTimeSamples_REAL8 4 6250000 1000000000 (1000000000 + 1 / 8388608) = some 6 ∧
    bin0_n_REAL8 copyLAL_REAL8 1000000000 (deltaT_REAL8 4 6250000)
      { sampleSFT 1000000000 [5, 6, 7, 8] with
        epoch := ⟨1000000000, 160⟩, deltaF := 6250000 } = some 3 ∧
    memcpy ([1, 2, 3, 4, 0, 0] : List ℤ) 3 [5, 6, 7, 8] 0 4 = none ∧
    XLALSFTVectorToLFT_REAL8 copyLAL_REAL8
        (some [{ sampleSFT 1000000000 [1, 2, 3, 4] with deltaF := 6250000 },
          { sampleSFT 1000000000 [5, 6, 7, 8] with
            epoch := ⟨1000000000, 160⟩, deltaF := 6250000 }])
      = (.undefined,
          [.ReverseCOMPLEX8FFTPlan 4, .COMPLEX8TimeSeries 6, .COMPLEX8TimeSeries 4, .Calloc,
            .COMPLEX8Vector 6],
          [{ sampleSFT 1000000000 [1, 2, 3, 4] with deltaF := 6250000 },
            { sampleSFT 1000000000 [5, 6, 7, 8] with
              epoch := ⟨1000000000, 160⟩, deltaF := 6250000 }]) ∧
    numTimeSamples_REAL8 1000000 100 1000000000
      (copyLAL_REAL8.XLALGPSGetREAL8 ⟨1000000000, 10000000⟩) = some 1999998 ∧
    bin0_n_REAL8 copyLAL_REAL8 1000000000 (deltaT_REAL8 1000000 100)
      { sampleSFT 1000000000 [] with
        epoch := ⟨1000000000, 10000000⟩, deltaF := 100 } = some 999999 := by
  decide!

/-- C16 (amended): the name of the transform returned by `XLALSFTVectorToLFT` is
the first segment's name followed by `:long Fourier transform`; it is never
equal to the first segment's name.  A transform is returned only for a name of
at most 40 bytes: once the output structure is allocated, `strcpy` and `strcat`
write the name, the 23 bytes of the suffix and the terminating zero into the
`LALNameLength = 64` bytes of `outputLFT->name`, and with a name of more than 40
bytes they write beyond it, which is undefined. -/
theorem C16_name_of_output {α U : Type} [Zero α] (E : LAL α)
    (firstHead : SFTtype α U) (rest : List (SFTtype α U)) :
    (∀ (out : SFTtype α U) (r : List Request) (sfts1 : List (SFTtype α U)),
      XLALSFTVectorToLFT_REAL8 E (some (firstHead :: rest)) = (.ok out, r, sfts1) →
      out.name = firstHead.name ++ ":long Fourier transform" ∧
      out.name ≠ firstHead.name ∧
      firstHead.name.utf8ByteSize ≤ 40) ∧
    (∀ numTimeSamples : Nat,
      40 < firstHead.name.utf8ByteSize →
      firstHead.deltaF ≠ 0 →
      numTimeSamples_REAL8 firstHead.data.length firstHead.deltaF
          (E.XLALGPSGetREAL8 firstHead.epoch)
          (E.XLALGPSGetREAL8 ((firstHead :: rest).getLast (List.cons_ne_nil _ _)).epoch)
        = some numTimeSamples →
      E.XLALCreateReverseCOMPLEX8FFTPlan firstHead.data.length = true →
      E.XLALCreateCOMPLEX8TimeSeries_lTS numTimeSamples = true →
      E.XLALCreateCOMPLEX8TimeSeries_sTS firstHead.data.length = true →
      E.LALCalloc = true →
      XLALSFTVectorToLFT_REAL8 E (some (firstHead :: rest))
        = (.undefined,
            [.ReverseCOMPLEX8FFTPlan firstHead.data.length,
              .COMPLEX8TimeSeries numTimeSamples,
              .COMPLEX8TimeSeries firstHead.data.length, .Calloc],
            firstHead :: rest)) := by
  constructor
  · intro out r sfts1 h
    obtain ⟨_, _, _, _, _, hname, _, _, _, _, _, _, hn, _⟩ :=
      XLALSFTVectorToLFT_REAL8_ok_inv E firstHead rest out r sfts1 h
    refine ⟨hn, ?_, ?_⟩
    · intro heq
      have hlen := congrArg String.length heq
      rw [hn, String.length_append] at hlen
      have : (":long Fourier transform" : String).length = 23 := by decide
      omega
    · simp only [LALNameLength] at hname
      omega
  · intro N hlong hF hN g1 g2 g3 g4
    have hname : LALNameLength < firstHead.name.utf8ByteSize + 23 + 1 := by
      simp only [LALNameLength]
      omega
    unfold XLALSFTVectorToLFT_REAL8
    simp only [if_neg hF, hN, if_pos hname]
    simp [g1, g2, g3, g4]

/-- Witness for C16: a run on SFTs named `H1` returns the name
`H1:long Fourier transform`; with a first name of 42 bytes the call is undefined
after the fourth request. -/
theorem C16_name_of_output_witness :
    ("H1:long Fourier transform" = (sampleSFT 0 [1, 2]).name ++ ":long Fourier transform" ∧
      "H1:long Fourier transform" ≠ (sampleSFT 0 [1, 2]).name ∧
      (sampleSFT 0 [1, 2]).name.utf8ByteSize ≤ 40) ∧
    XLALSFTVectorToLFT_REAL8 copyLAL_REAL8
        (some [{ sampleSFT 0 [1, 2] with name := "H1:band-0100.0-0100.5:SFT-of-1800s:Hanning" },
          sampleSFT 5 [3, 4]])
      = (.undefined,
          [.ReverseCOMPLEX8FFTPlan 2, .COMPLEX8TimeSeries 7, .COMPLEX8TimeSeries 2, .Calloc],
          [{ sampleSFT 0 [1, 2] with name := "H1:band-0100.0-0100.5:SFT-of-1800s:Hanning" },
            sampleSFT 5 [3, 4]]) :=
  have h : XLALSFTVectorToLFT_REAL8 copyLAL_REAL8
        (some [sampleSFT 0 [1, 2], sampleSFT 5 [3, 4]])
      = (.ok { name := "H1:long Fourier transform", epoch := ⟨0, 0⟩, f0 := 100,
               deltaF := REAL8 (1 / 7), sampleUnits := (),
               data := [0, 3, 4, 1, 2, 0, 0] },
          [.ReverseCOMPLEX8FFTPlan 2, .COMPLEX8TimeSeries 7, .COMPLEX8TimeSeries 2, .Calloc,
            .COMPLEX8Vector 7, .ForwardCOMPLEX8FFTPlan 7],
          [sampleSFT 0 [1, 2], sampleSFT 5 [3, 4]]) := by decide!
  ⟨(C16_name_of_output copyLAL_REAL8 (sampleSFT 0 [1, 2]) [sampleSFT 5 [3, 4]]).1 _ _ _ h,
    (C16_name_of_output copyLAL_REAL8
      { sampleSFT 0 [1, 2] with name := "H1:band-0100.0-0100.5:SFT-of-1800s:Hanning" }
      [sampleSFT 5 [3, 4]]).2 7 (by decide) (by decide!) (by decide!) (by decide)
      (by decide) (by decide) (by decide)⟩

/-- Counterexample to C16 as stated: for SFTs named `H1` the returned name is
`H1:long Fourier transform`, not `H1`. -/
theorem C16_counterexample :
    (sampleSFT 0 [1, 2]).name = "H1" ∧
    (match (XLALSFTVectorToLFT_REAL8 copyLAL_REAL8
        (some [sampleSFT 0 [1, 2], sampleSFT 2 [3, 4]])).1 with
      | .ok out => some out.name
      | _ => none) = some "H1:long Fourier transform" ∧
    "H1:long Fourier transform" ≠ (sampleSFT 0 [1, 2]).name := by
  decide!

end LFT
